import Mathlib

/-
  Verification development for the Tg-aiBot conversation-state and dispatch
  subsystem.  The Lean definitions below are a shallow embedding of the
  Python sources:

  * src/memory.py   — ConversationMemory / MemoryManager (history, game state,
                      JSON persistence with recursive datetime conversion)
  * src/bot.py      — handle_text_message, _check_game_response,
                      _check_tool_request, the quiz_answer_/quiz_hint callback
                      branches of handle_callback
  * src/utils.py    — Calculator, GameService.check_guess,
                      GameService.check_quiz_answer

  Python string/number primitives used by that code (str.strip, str.lower,
  `in` substring test, str.isdigit, int(...), slicing lst[-k:]) are embedded
  first, operating on the character lists underlying Lean strings.
-/

/-! ## Python string primitives -/

/-- Characters removed by Python `str.strip()` (the ASCII whitespace the
sources can actually receive). -/
def isPySpace (c : Char) : Bool :=
  c = ' ' || c = '\t' || c = '\n' || c = '\r'

/-- Python `str.strip()`. -/
def pyStrip (s : String) : String :=
  ⟨((s.data.dropWhile isPySpace).reverse.dropWhile isPySpace).reverse⟩

/-- Python `str.lower()` on the alphabets that occur in the sources:
ASCII A–Z and Cyrillic А–Я / Ё. -/
def pyLowerChar (c : Char) : Char :=
  if 65 ≤ c.toNat ∧ c.toNat ≤ 90 then Char.ofNat (c.toNat + 32)
  else if 1040 ≤ c.toNat ∧ c.toNat ≤ 1071 then Char.ofNat (c.toNat + 32)
  else if c.toNat = 1025 then Char.ofNat 1105
  else c

/-- Python `str.lower()`. -/
def pyLower (s : String) : String :=
  ⟨s.data.map pyLowerChar⟩

/-- Does `hay` start with `needle` (character-wise)? -/
def matchesAt : List Char → List Char → Bool
  | [], _ => true
  | _ :: _, [] => false
  | a :: as, b :: bs => a = b && matchesAt as bs

/-- Scan for `needle` as a contiguous run inside `hay`. -/
def findSub (needle : List Char) : List Char → Bool
  | [] => needle.isEmpty
  | b :: bs => matchesAt needle (b :: bs) || findSub needle bs

/-- Python `needle in hay` (contiguous substring test). -/
def strHas (hay needle : String) : Bool :=
  findSub needle.data hay.data

/-- Python `str.isdigit()` for ASCII digits: non-empty and all digits. -/
def pyIsDigit (s : String) : Bool :=
  !s.data.isEmpty && s.data.all Char.isDigit

/-- Decimal value of a digit list (used for Python `int(text)` on a string
that passed `isdigit`). -/
def digitsToNat (l : List Char) : Nat :=
  l.foldl (fun acc c => acc * 10 + (c.toNat - 48)) 0

/-- Python `int(text)` on an `isdigit` string. -/
def strToNat (s : String) : Nat :=
  digitsToNat s.data

/-- Python `int(text)` with sign handling, returning `none` on `ValueError`.
Used by `check_quiz_answer` (src/utils.py:1186) and the
`quiz_custom_count` branch (src/bot.py). -/
def pyParseInt (s : String) : Option Int :=
  let t := (pyStrip s).data
  match t with
  | [] => none
  | '-' :: rest => if !rest.isEmpty && rest.all Char.isDigit
                   then some (-(digitsToNat rest : Int)) else none
  | '+' :: rest => if !rest.isEmpty && rest.all Char.isDigit
                   then some (digitsToNat rest : Int) else none
  | l => if l.all Char.isDigit then some (digitsToNat l : Int) else none

/-- Python slice `lst[-k:]` (for `k = 0` Python returns the whole list). -/
def pySliceLast (k : Nat) (l : List α) : List α :=
  if k = 0 then l else l.drop (l.length - k)

/-- Python `s[:n]` on strings (first `n` characters). -/
def pyTake (s : String) (n : Nat) : String :=
  ⟨s.data.take n⟩

/-! ## src/memory.py — ConversationMemory

`ConversationMemory.__init__` (src/memory.py:18-34) sets
`max_messages = 20`; `add_message` (src/memory.py:36-53) appends a
`{role, content, timestamp, type}` dict, bumps `total_messages`,
and trims `self.messages = self.messages[-self.max_messages:]`
when the length exceeds the bound. -/

structure MemMessage where
  role : String
  content : String
  timestamp : Nat
  mtype : String
deriving DecidableEq, Repr

structure ConvMemory where
  max_messages : Nat := 20
  messages : List MemMessage := []
  total_messages : Nat := 0
deriving DecidableEq, Repr

/-- src/memory.py:36-53 `ConversationMemory.add_message` (the `now`
argument stands for `datetime.now()`). -/
def add_message (m : ConvMemory) (role content mtype : String) (now : Nat) :
    ConvMemory :=
  let msgs := m.messages ++ [⟨role, content, now, mtype⟩]
  { m with
    messages :=
      if msgs.length > m.max_messages then pySliceLast m.max_messages msgs
      else msgs,
    total_messages := m.total_messages + 1 }

/-- A whole input sequence of `add_message` calls, oldest first. -/
def addAll (m : ConvMemory) : List (String × String × String × Nat) → ConvMemory
  | [] => m
  | ⟨r, c, t, n⟩ :: rest => addAll (add_message m r c t n) rest

/-- The message record each input tuple turns into. -/
def mkMsg : String × String × String × Nat → MemMessage
  | ⟨r, c, t, n⟩ => ⟨r, c, n, t⟩

/-! ## src/memory.py — get_recent_messages / get_context_for_ai -/

/-- src/memory.py:55-57 `get_recent_messages`:
`self.messages[-limit:] if self.messages else []`. -/
def get_recent_messages (m : ConvMemory) (limit : Nat) : List MemMessage :=
  if m.messages.isEmpty then [] else pySliceLast limit m.messages

/-- The per-message rendering inside src/memory.py:59-74
`get_context_for_ai`. -/
def renderContextMsg (msg : MemMessage) : String :=
  if msg.mtype = "command" then
    "[Команда пользователя: " ++ msg.content ++ "]"
  else if msg.role = "user" then
    "Пользователь: " ++ msg.content
  else
    "ИИ: " ++ pyTake msg.content 200 ++ "..."

/-- src/memory.py:59-74 `get_context_for_ai`: renders the last `limit`
(default 8) messages and joins the last 6 rendered parts. -/
def get_context_for_ai (m : ConvMemory) (limit : Nat := 8) : String :=
  let recent := get_recent_messages m limit
  if recent.isEmpty then ""
  else String.intercalate "\n" (pySliceLast 6 (recent.map renderContextMsg))

/-- The same operation as described by the specification: empty string on
empty history, otherwise join the renderings of the 6 most recent of the
last `limit` messages. -/
def getContextSpec (m : ConvMemory) (limit : Nat := 8) : String :=
  if m.messages.isEmpty then ""
  else String.intercalate "\n"
    ((pySliceLast 6 (pySliceLast limit m.messages)).map renderContextMsg)

/-! ## src/utils.py — GameService verdict functions -/

/-- src/utils.py:661-677 `GameService.check_guess`. -/
def check_guess (guess target : Nat) : String :=
  if guess < target then "📈 Загаданное число больше! ⬆️"
  else if guess > target then "📉 Загаданное число меньше! ⬇️"
  else "🎉 Правильно! Ты угадал! 🎊"

/-- src/utils.py:1186-1198 `GameService.check_quiz_answer`. -/
def check_quiz_answer (_question user_answer correct_answer : String) : String :=
  match pyParseInt user_answer with
  | none => "❌ Введи число от 1 до 4!"
  | some n =>
    if 1 ≤ n ∧ n ≤ 4 then
      if toString n = correct_answer then "🎉 Правильно! Ты умница! 🧠"
      else "❌ Неправильно, но не расстраивайся! Попробуй еще раз."
    else "❌ Введи число от 1 до 4!"

/-! ## src/bot.py — tool-request layer

`_check_tool_request` (src/bot.py:1790-1838) tests, in order: weather
keywords, translation keywords, `_is_math_expression`, fun keywords, each
by Python substring membership in `text.lower().strip()`; the first match
returns `True` after sending the tool's reply (or a usage hint).  The whole
body runs in a `try`; any exception is answered with a generic error reply
and `return True`. -/

def weatherKeywords : List String :=
  ["погода", "погодка", "какая погода", "weather", "температура", "прогноз"]

def translateKeywords : List String :=
  ["переведи", "перевод", "translate", "translation"]

def funKeywords : List String :=
  ["факт", "шутка", "цитата", "fact", "joke", "quote", "интересное",
   "интересный факт"]

/-- src/bot.py:1922-1931 `_is_math_expression`: after removing spaces the
text has a digit, an operator from `+-*/^()`, and length > 1. -/
def is_math_expression (text : String) : Bool :=
  let t := text.data.filter (fun c => c ≠ ' ')
  (t.any Char.isDigit) &&
  (t.any (fun c => c = '+' || c = '-' || c = '*' || c = '/' ||
                   c = '^' || c = '(' || c = ')')) &&
  decide (t.length > 1)

/-- The method names the `Calculator` class actually defines
(src/utils.py:16-47): only `evaluate_expression`.  The module-level
instance used by the bot is `calculator = Calculator()`
(src/utils.py:1453). -/
def calculatorMethodNames : List String := ["evaluate_expression"]

/-- Python runtime errors that the routing layer can raise. -/
inductive PyExn where
  | attributeError (missing : String)
  | nameError (missing : String)
deriving DecidableEq, Repr

/-- Replies the tool layer can emit; one constructor per `return True`
path of `_check_tool_request`.  The concrete reply strings (weather report
vs usage hint, translation vs unsupported-language vs usage hint, fun
fact/joke/quote) do not matter to any claim, so each family is one
constructor. -/
inductive ToolOutcome where
  | weather
  | translation
  | calcResult (expression : String)
  | funReply
  | toolError
deriving DecidableEq, Repr

/-- src/bot.py:1933-1951 `_process_calc_request`: evaluates
`calculator.calculate(expression)`.  Attribute lookup on the `Calculator`
instance raises `AttributeError` when the name is not defined by the class;
the class defines only `evaluate_expression`, so the call never reaches a
computation.  The `.ok` branch is what the code would reply if a
`calculate` attribute existed. -/
def process_calc_request (expression : String) : Except PyExn ToolOutcome :=
  if "calculate" ∈ calculatorMethodNames then .ok (.calcResult expression)
  else .error (.attributeError "calculate")

/-- Body of src/bot.py:1790-1833 `_check_tool_request` before its
`except`: `some outcome` models `return True` with that reply, `none`
models the final `return False`. -/
def check_tool_request_body (text : String) : Except PyExn (Option ToolOutcome) :=
  let textLower := pyStrip (pyLower text)
  if weatherKeywords.any (fun k => strHas textLower k) then
    .ok (some .weather)
  else if translateKeywords.any (fun k => strHas textLower k) then
    .ok (some .translation)
  else if is_math_expression text then
    (process_calc_request text).map some
  else if funKeywords.any (fun k => strHas textLower k) then
    .ok (some .funReply)
  else
    .ok none

/-- src/bot.py:1790-1838 `_check_tool_request` including its `except`
clause (src/bot.py:1835-1838), which replies with a generic error and
returns `True`. -/
def check_tool_request (text : String) : Option ToolOutcome :=
  match check_tool_request_body text with
  | .ok r => r
  | .error _ => some .toolError

/-! ## src/bot.py — game-response layer -/

/-- The per-user game payload dict (`game_data` in src/memory.py); each
field models one key the `_check_game_response` branches read with
`.get`. -/
structure GameData where
  target_number : Option Nat := none
  correct_answer : Option String := none
  question : String := ""
  hint : Option String := none
  options : List String := []
deriving DecidableEq, Repr

/-- The activity part of a user's `ConversationMemory` metadata:
`game_state.active_game` plus its payload. -/
structure GameState where
  active_game : Option String := none
  game_data : GameData := {}
deriving DecidableEq, Repr

/-- src/memory.py `clear_active_game`: resets the game and its payload. -/
def clearGame (st : GameState) : GameState :=
  { st with active_game := none, game_data := {} }

/-- External collaborators reached from `_check_game_response`
(rock-paper-scissors randomness, the magic-ball AI call, the translation
client).  Modelled as an oracle so the router stays a pure function. -/
structure GameOracle where
  rpsResult : String → String
  magicBallAnswer : String → String
  translateText : String → String → Option String

/-- Replies the game layer can emit (one constructor per reply site of
src/bot.py:1642-1788 `_check_game_response`). -/
inductive GameReply where
  | guessWin (result : String)
  | guessProgress (result : String)
  | quizWrongWithOptions (hint : String) (options : List String)
  | quizWrongFallback (result : String)
  | rpsResult (text : String)
  | magicBall (question answer : String)
  | translated (lang text : String)
  | translateFail
  | quizCustomOk (n : Int)
  | quizCustomRange
  | quizCustomNaN
  | gameError
deriving DecidableEq, Repr

/-- Result of `_check_game_response`: the returned boolean, the game state
after the call, and the replies sent. -/
structure GameRespOut where
  handled : Bool
  state : GameState
  replies : List GameReply
deriving DecidableEq, Repr

/-- src/bot.py:1642-1788 `_check_game_response`.  Returns `False` straight
away with no active game; otherwise runs the branch for the active game.
The whole dispatch sits in a `try` whose `except` (src/bot.py:1784-1787)
replies with a generic error; the function then falls through to its final
`return False`.  The only statement in the body that can raise is the
`await callback.message.reply(...)` at src/bot.py:1690: `callback` is not
a name bound anywhere in `_check_game_response` (the message parameter is
named `message`) nor at module level, so evaluating it raises `NameError`.
That branch is reached exactly when the quiz answer is correct, after
`clear_user_active_game` has already run. -/
def check_game_response (o : GameOracle) (st : GameState) (text : String) :
    GameRespOut :=
  match st.active_game with
  | none => ⟨false, st, []⟩
  | some g =>
    if g = "guess_number" then
      -- src/bot.py:1650-1674
      if pyIsDigit text then
        let guess := strToNat text
        match st.game_data.target_number with
        | some t =>
          if t ≠ 0 then
            let result := check_guess guess t
            if strHas result "Правильно" then
              ⟨true, clearGame st, [.guessWin result]⟩
            else
              ⟨true, st, [.guessProgress result]⟩
          else ⟨false, st, []⟩     -- `if target_number:` is falsy for 0
        | none => ⟨false, st, []⟩  -- `.get` returned None
      else ⟨false, st, []⟩
    else if g = "quiz" then
      -- src/bot.py:1676-1711
      if pyIsDigit text && decide (1 ≤ strToNat text) && decide (strToNat text ≤ 4) then
        match st.game_data.correct_answer with
        | some ca =>
          if ca ≠ "" then
            let result := check_quiz_answer st.game_data.question text ca
            if strHas result "Правильно" then
              -- clear, then the unbound `callback` raises NameError,
              -- caught at src/bot.py:1784-1787; final `return False`
              ⟨false, clearGame st, [.gameError]⟩
            else
              let hint := st.game_data.hint.getD "Подсказка недоступна"
              if st.game_data.options ≠ [] then
                ⟨true, st, [.quizWrongWithOptions hint st.game_data.options]⟩
              else
                ⟨true, st, [.quizWrongFallback result]⟩
          else ⟨false, st, []⟩      -- `if correct_answer:` falsy
        | none => ⟨false, st, []⟩
      else ⟨false, st, []⟩
    else if g = "rps" then
      -- src/bot.py:1713-1731
      if pyLower text = "камень" ∨ pyLower text = "ножницы" ∨ pyLower text = "бумага" then
        ⟨true, clearGame st, [.rpsResult (o.rpsResult (pyLower text))]⟩
      else ⟨false, st, []⟩
    else if g = "magic_ball" then
      -- src/bot.py:1733-1746
      if (pyStrip text).length > 0 then
        ⟨true, clearGame st, [.magicBall (pyStrip text) (o.magicBallAnswer (pyStrip text))]⟩
      else ⟨false, st, []⟩
    else if g.startsWith "translate_" then
      -- src/bot.py:1748-1761
      if (pyStrip text).length > 0 then
        let lang := g.replace "translate_" ""
        match o.translateText text lang with
        | some tr => ⟨true, clearGame st, [.translated lang tr]⟩
        | none => ⟨true, st, [.translateFail]⟩
      else ⟨false, st, []⟩
    else if g = "quiz_custom_count" then
      -- src/bot.py:1763-1782
      if (pyStrip text).length > 0 then
        match pyParseInt (pyStrip text) with
        | some n =>
          if 1 ≤ n ∧ n ≤ 50 then
            ⟨true, clearGame st, [.quizCustomOk n]⟩
          else ⟨true, st, [.quizCustomRange]⟩
        | none => ⟨true, st, [.quizCustomNaN]⟩
      else ⟨true, st, []⟩
    else ⟨false, st, []⟩

/-! ## src/bot.py — handle_text_message routing -/

/-- The routing class an incoming text ends in. -/
inductive Route where
  | tool (t : ToolOutcome)
  | game
  | generic
deriving DecidableEq, Repr

/-- Outcome of one `handle_text_message` turn: the route, the game state
afterwards, and the replies the game layer sent along the way. -/
structure RouteOut where
  route : Route
  state : GameState
  gameReplies : List GameReply
deriving DecidableEq, Repr

/-- src/bot.py:1573-1591 `handle_text_message`: strips the text, then
calls `_check_tool_request` FIRST; only when that returns `False` does it
call `_check_game_response`; only when that also returns `False` does the
message reach the generic-chat path (history append + AI call).  Note the
side effects of a failed `_check_game_response` (cleared activity, error
reply) still happen before the generic path runs. -/
def handle_text_message (o : GameOracle) (st : GameState) (rawText : String) :
    RouteOut :=
  let text := pyStrip rawText
  match check_tool_request text with
  | some t => ⟨.tool t, st, []⟩
  | none =>
    let gr := check_game_response o st text
    if gr.handled then ⟨.game, gr.state, gr.replies⟩
    else ⟨.generic, gr.state, gr.replies⟩

/-! ## src/bot.py — callback-quiz session (quiz_answer_ / quiz_hint) -/

/-- One entry of the callback quiz's `questions` list
(src/bot.py:818-823, 925-929). -/
structure QuizQuestion where
  question : String
  options : List String
  correct_answer : String
  hint : Option String := none
deriving DecidableEq, Repr

/-- The callback quiz session payload
(`{questions, current_question, correct_answers, total_questions,
used_hints}`). -/
structure QuizSession where
  questions : List QuizQuestion
  current_question : Nat
  correct_answers : Nat
  total_questions : Nat
  used_hints : Nat := 0
deriving DecidableEq, Repr

/-- What the `quiz_answer_` branch leaves behind. -/
structure QuizAnswerOut where
  session : QuizSession
  isCorrect : Bool
  finished : Bool
deriving DecidableEq, Repr

/-- src/bot.py:810-888 `handle_callback`, `quiz_answer_` branch: checks
`current_question < len(questions)` (otherwise an error answer and no
mutation, modelled by `none`); compares the pressed answer with
`correct_answer`; increments `correct_answers` only when correct; then
increments `current_question` UNCONDITIONALLY; the quiz finishes (activity
cleared) when the new index reaches `total_questions`. -/
def quiz_answer_callback (s : QuizSession) (userAnswer : String) :
    Option QuizAnswerOut :=
  if h : s.current_question < s.questions.length then
    let qd := s.questions.get ⟨s.current_question, h⟩
    let isCorrect := userAnswer = qd.correct_answer
    let s1 := { s with
      correct_answers :=
        if isCorrect then s.correct_answers + 1 else s.correct_answers,
      current_question := s.current_question + 1 }
    some ⟨s1, isCorrect, s1.current_question ≥ s1.total_questions⟩
  else none

/-- src/bot.py:891-944 `quiz_hint` branch: the hint budget,
`max_hints = max(0, (total_questions - 5) // 5)` (Python floor division,
hence `Int.fdiv`). -/
def maxHintsFor (totalQuestions : Nat) : Int :=
  max 0 (Int.fdiv ((totalQuestions : Int) - 5) 5)

/-- src/bot.py:891-944 `handle_callback`, `quiz_hint` branch: rejects
(callback answer only, session untouched, modelled by `none`) when the
budget is zero, when `used_hints >= max_hints`, when the current index is
out of range, or when the question/hint text is empty; otherwise
increments `used_hints` by one and re-renders the question. -/
def quiz_hint_callback (s : QuizSession) : Option QuizSession :=
  let maxHints := maxHintsFor s.total_questions
  if maxHints ≤ 0 then none
  else if (s.used_hints : Int) ≥ maxHints then none
  else if h : s.current_question < s.questions.length then
    let qd := s.questions.get ⟨s.current_question, h⟩
    let hint := qd.hint.getD "Подсказка недоступна"
    if qd.question = "" ∨ hint = "" then none
    else some { s with used_hints := s.used_hints + 1 }
  else none

/-! ## src/memory.py — persistence round-trip

`_save_memories` (src/memory.py:217-280) turns every datetime in a user's
record into its ISO text: message timestamps and the metadata fields
directly with `.isoformat()`, the open `game_data` payload with the
recursive `_convert_datetime_in_dict` (src/memory.py:297-333); anything
the walk missed is still stringified by `json.dump`'s `default=`
serializer (src/memory.py:283-295).  `_load_memories`
(src/memory.py:173-215) parses those fields back with
`datetime.fromisoformat` and runs `_convert_strings_to_datetime`
(src/memory.py:347-384) over `game_data`. -/

/-- A Python `datetime`: calendar fields, microseconds, and an optional
UTC offset in whole minutes (the datetimes `fromisoformat` can build from
the forms modelled below; `tzOffsetMinutes = none` is a naive datetime
such as `datetime.now()` produces). -/
structure PyDateTime where
  year : Nat
  month : Nat
  day : Nat
  hour : Nat
  minute : Nat
  second : Nat
  microsecond : Nat
  tzOffsetMinutes : Option Int
deriving DecidableEq, Repr

/-- The decimal digit character for `n ≤ 9`. -/
def digCh (n : Nat) : Char := Char.ofNat (48 + n)

/-- Two-digit zero-padded rendering (`%02d` for values below 100). -/
def pad2 (n : Nat) : List Char := [digCh (n / 10), digCh (n % 10)]

/-- Four-digit zero-padded rendering (`%04d` for values below 10000). -/
def pad4 (n : Nat) : List Char :=
  [digCh (n / 1000), digCh (n / 100 % 10), digCh (n / 10 % 10), digCh (n % 10)]

/-- Six-digit zero-padded rendering (`%06d` for values below 1000000),
how `isoformat` prints a non-zero microsecond field. -/
def pad6 (n : Nat) : List Char :=
  [digCh (n / 100000), digCh (n / 10000 % 10), digCh (n / 1000 % 10),
   digCh (n / 100 % 10), digCh (n / 10 % 10), digCh (n % 10)]

/-- The fractional-second part of `isoformat`: empty for microsecond 0,
otherwise `.` followed by exactly six digits. -/
def fracChars (t : PyDateTime) : List Char :=
  if t.microsecond = 0 then [] else '.' :: pad6 t.microsecond

/-- The UTC-offset part of `isoformat`: empty for a naive datetime,
otherwise `±HH:MM` (offset 0 prints as `+00:00`, which is also how a
parsed `Z` suffix is re-rendered). -/
def tzChars (t : PyDateTime) : List Char :=
  match t.tzOffsetMinutes with
  | none => []
  | some off =>
    (if 0 ≤ off then '+' else '-') ::
    (pad2 (off.natAbs / 60) ++ ':' :: pad2 (off.natAbs % 60))

/-- `datetime.isoformat()`: `YYYY-MM-DDTHH:MM:SS[.ffffff][±HH:MM]`. -/
def isoformat (t : PyDateTime) : String :=
  ⟨pad4 t.year ++ '-' :: pad2 t.month ++ '-' :: pad2 t.day ++
   'T' :: pad2 t.hour ++ ':' :: pad2 t.minute ++ ':' :: pad2 t.second ++
   fracChars t ++ tzChars t⟩

/-- Numeric value of two digit characters. -/
def val2 (a b : Char) : Nat := (a.toNat - 48) * 10 + (b.toNat - 48)

/-- Numeric value of four digit characters. -/
def val4 (a b c d : Char) : Nat :=
  ((a.toNat - 48) * 10 + (b.toNat - 48)) * 100 + val2 c d

/-- The optional fractional-second part accepted after the seconds:
nothing, or `.` followed by 1–6 digits scaled to microseconds (so `.123`
parses as 123000 microseconds and is re-rendered as `.123000`). -/
def parseFrac : List Char → Option (Nat × List Char)
  | '.' :: rest =>
    let ds := rest.takeWhile Char.isDigit
    if 1 ≤ ds.length ∧ ds.length ≤ 6 then
      some (digitsToNat ds * 10 ^ (6 - ds.length), rest.drop ds.length)
    else none
  | rest => some (0, rest)

/-- The optional UTC-offset suffix accepted at the end: nothing (naive),
`Z` (offset 0, re-rendered as `+00:00`), or `±HH:MM` with hours ≤ 23 and
minutes ≤ 59. -/
def parseTz : List Char → Option (Option Int)
  | [] => some none
  | ['Z'] => some (some 0)
  | ['+', a, b, ':', c, d] =>
    if (a.isDigit ∧ b.isDigit ∧ c.isDigit ∧ d.isDigit) ∧
       val2 a b ≤ 23 ∧ val2 c d ≤ 59 then
      some (some ((val2 a b : Int) * 60 + (val2 c d : Int)))
    else none
  | ['-', a, b, ':', c, d] =>
    if (a.isDigit ∧ b.isDigit ∧ c.isDigit ∧ d.isDigit) ∧
       val2 a b ≤ 23 ∧ val2 c d ≤ 59 then
      some (some (-((val2 a b : Int) * 60 + (val2 c d : Int))))
    else none
  | _ => none

/-- `datetime.fromisoformat` on the canonical date-time prefix with the
widened suffixes it also accepts — fractional seconds (1–6 digits), a `Z`
suffix, an explicit `±HH:MM` offset — and the field-range validation the
Python constructor performs (`none` models the raised `ValueError`).
Python accepts a few further widenings not modelled here (a non-`T`
separator, offsets without a colon, a comma as the decimal sign); the
round-trip theorems below therefore never rely on a parse FAILURE of a
datetime-looking string, only on parses of exact canonical renderings,
where Python behaves identically. -/
def fromisoformat (s : String) : Option PyDateTime :=
  match s.data with
  | y1 :: y2 :: y3 :: y4 :: '-' :: m1 :: m2 :: '-' :: d1 :: d2 :: 'T' ::
    h1 :: h2 :: ':' :: n1 :: n2 :: ':' :: s1 :: s2 :: rest =>
    if [y1, y2, y3, y4, m1, m2, d1, d2, h1, h2, n1, n2, s1, s2].all Char.isDigit
    then
      match parseFrac rest with
      | some (micro, rest2) =>
        match parseTz rest2 with
        | some tz =>
          let t : PyDateTime :=
            ⟨val4 y1 y2 y3 y4, val2 m1 m2, val2 d1 d2,
             val2 h1 h2, val2 n1 n2, val2 s1 s2, micro, tz⟩
          if 1 ≤ t.month ∧ t.month ≤ 12 ∧ 1 ≤ t.day ∧ t.day ≤ 31 ∧
             t.hour ≤ 23 ∧ t.minute ≤ 59 ∧ t.second ≤ 59
          then some t else none
        | none => none
      | none => none
    else none
  | _ => none

/-- src/memory.py:386-391 `_is_datetime_string`:
`'T' in s and ('-' in s or ':' in s) and len(s) >= 19`. -/
def is_datetime_string (s : String) : Bool :=
  s.data.contains 'T' && (s.data.contains '-' || s.data.contains ':') &&
  decide (s.length ≥ 19)

/- A value inside the open `game_data` payload (JSON scalars, datetimes,
lists, string-keyed dicts; dicts keep insertion order as Python does). -/
mutual
inductive PyVal where
  | pstr (s : String)
  | pint (n : Int)
  | pnone
  | pdt (t : PyDateTime)
  | plist (xs : PyList)
  | pdict (d : PyDict)
inductive PyList where
  | nil
  | cons (hd : PyVal) (tl : PyList)
inductive PyDict where
  | nil
  | cons (key : String) (val : PyVal) (tl : PyDict)
end

/- src/memory.py:297-333 `_convert_datetime_in_dict`: walks a dict's
values; recurses into dict values; replaces datetime values by their ISO
text; for a list value converts only its top-level items (dict items are
recursed, datetime items stringified, anything else — including a nested
list — is left untouched).  Strings and scalars have no `isoformat`
attribute, so they are untouched. -/
mutual
def convDtDict : PyDict → PyDict
  | .nil => .nil
  | .cons k (.pdict d) tl => .cons k (.pdict (convDtDict d)) (convDtDict tl)
  | .cons k (.pdt t) tl => .cons k (.pstr (isoformat t)) (convDtDict tl)
  | .cons k (.plist xs) tl => .cons k (.plist (convDtList xs)) (convDtDict tl)
  | .cons k v tl => .cons k v (convDtDict tl)
def convDtList : PyList → PyList
  | .nil => .nil
  | .cons (.pdict d) tl => .cons (.pdict (convDtDict d)) (convDtList tl)
  | .cons (.pdt t) tl => .cons (.pstr (isoformat t)) (convDtList tl)
  | .cons hd tl => .cons hd (convDtList tl)
end

/- src/memory.py:283-295 `_json_serializer`, the `default=` hook of
`json.dump`: any datetime the walk above missed is rendered as its ISO
text at dump time, at every depth. -/
mutual
def dumpVal : PyVal → PyVal
  | .pdt t => .pstr (isoformat t)
  | .plist xs => .plist (dumpList xs)
  | .pdict d => .pdict (dumpDict d)
  | v => v
def dumpList : PyList → PyList
  | .nil => .nil
  | .cons hd tl => .cons (dumpVal hd) (dumpList tl)
def dumpDict : PyDict → PyDict
  | .nil => .nil
  | .cons k v tl => .cons k (dumpVal v) (dumpDict tl)
end

/-- src/memory.py:363-370: a string value is turned back into a datetime
when `_is_datetime_string` holds and `fromisoformat` does not raise. -/
def strToDt (s : String) : PyVal :=
  if is_datetime_string s then
    match fromisoformat s with
    | some t => .pdt t
    | none => .pstr s
  else .pstr s

/- src/memory.py:347-384 `_convert_strings_to_datetime`: the mirror walk
of `convDtDict` — dict values recursed, datetime-looking string values
parsed, list values converted one level deep (dict items recursed, string
items parsed, nested lists untouched). -/
mutual
def convStrDict : PyDict → PyDict
  | .nil => .nil
  | .cons k (.pdict d) tl => .cons k (.pdict (convStrDict d)) (convStrDict tl)
  | .cons k (.pstr s) tl => .cons k (strToDt s) (convStrDict tl)
  | .cons k (.plist xs) tl => .cons k (.plist (convStrList xs)) (convStrDict tl)
  | .cons k v tl => .cons k v (convStrDict tl)
def convStrList : PyList → PyList
  | .nil => .nil
  | .cons (.pdict d) tl => .cons (.pdict (convStrDict d)) (convStrList tl)
  | .cons (.pstr s) tl => .cons (strToDt s) (convStrList tl)
  | .cons hd tl => .cons hd (convStrList tl)
end

/-- What `_save_memories` writes for the `game_data` payload: the explicit
datetime walk followed by the dump-time default serializer.  The JSON
printer itself is injective and deterministic on this value, so equality
of these trees is byte-identity of the stored text. -/
def serializeGameData (d : PyDict) : PyDict := dumpDict (convDtDict d)

/-- What `_load_memories` reconstructs for the `game_data` payload
(json.load yields the same tree with all leaves as written). -/
def deserializeGameData (d : PyDict) : PyDict := convStrDict d

/-! ## Round-trip lemmas for the ISO timestamp form -/

theorem digCh_isDigit (n : Nat) (h : n ≤ 9) : (digCh n).isDigit = true := by
  interval_cases n <;> decide

theorem digCh_toNat (n : Nat) (h : n ≤ 9) : (digCh n).toNat = 48 + n := by
  interval_cases n <;> decide

theorem digCh_of_isDigit (c : Char) (h : c.isDigit = true) :
    digCh (c.toNat - 48) = c := by
  simp [Char.isDigit] at h
  obtain ⟨h1, h2⟩ := h
  have he : 48 + (c.toNat - 48) = c.toNat := by
    have : 48 ≤ c.toNat := h1
    omega
  rw [digCh, he, Char.ofNat_toNat]

theorem isDigit_toNat_bounds (c : Char) (h : c.isDigit = true) :
    48 ≤ c.toNat ∧ c.toNat ≤ 57 := by
  simp [Char.isDigit] at h
  exact ⟨h.1, h.2⟩

theorem val2_pad2 (n : Nat) (h : n < 100) :
    val2 (digCh (n / 10)) (digCh (n % 10)) = n := by
  rw [val2, digCh_toNat _ (by omega), digCh_toNat _ (by omega)]
  omega

theorem val4_pad4 (n : Nat) (h : n < 10000) :
    val4 (digCh (n / 1000)) (digCh (n / 100 % 10)) (digCh (n / 10 % 10))
      (digCh (n % 10)) = n := by
  rw [val4, val2, digCh_toNat _ (by omega), digCh_toNat _ (by omega),
      digCh_toNat _ (by omega), digCh_toNat _ (by omega)]
  omega

theorem pad2_of_digits (a b : Char) (ha : a.isDigit = true)
    (hb : b.isDigit = true) : pad2 (val2 a b) = [a, b] := by
  obtain ⟨ha1, ha2⟩ := isDigit_toNat_bounds a ha
  obtain ⟨hb1, hb2⟩ := isDigit_toNat_bounds b hb
  have h1 : val2 a b / 10 = a.toNat - 48 := by rw [val2]; omega
  have h2 : val2 a b % 10 = b.toNat - 48 := by rw [val2]; omega
  rw [pad2, h1, h2, digCh_of_isDigit a ha, digCh_of_isDigit b hb]

theorem pad4_of_digits (a b c d : Char) (ha : a.isDigit = true)
    (hb : b.isDigit = true) (hc : c.isDigit = true) (hd : d.isDigit = true) :
    pad4 (val4 a b c d) = [a, b, c, d] := by
  obtain ⟨ha1, ha2⟩ := isDigit_toNat_bounds a ha
  obtain ⟨hb1, hb2⟩ := isDigit_toNat_bounds b hb
  obtain ⟨hc1, hc2⟩ := isDigit_toNat_bounds c hc
  obtain ⟨hd1, hd2⟩ := isDigit_toNat_bounds d hd
  have h1 : val4 a b c d / 1000 = a.toNat - 48 := by rw [val4, val2]; omega
  have h2 : val4 a b c d / 100 % 10 = b.toNat - 48 := by rw [val4, val2]; omega
  have h3 : val4 a b c d / 10 % 10 = c.toNat - 48 := by rw [val4, val2]; omega
  have h4 : val4 a b c d % 10 = d.toNat - 48 := by rw [val4, val2]; omega
  rw [pad4, h1, h2, h3, h4, digCh_of_isDigit a ha, digCh_of_isDigit b hb,
      digCh_of_isDigit c hc, digCh_of_isDigit d hd]

/-- The UTC offset, when present, is strictly within ±24 hours, as both
`parseTz` and the Python `timezone` constructor enforce. -/
def tzOk (t : PyDateTime) : Bool :=
  match t.tzOffsetMinutes with
  | none => true
  | some off => decide (off.natAbs ≤ 1439)

/-- The datetime values Python can actually construct (`datetime`
validates its fields; days are bounded per month, 31 is the common upper
bound used here). -/
def validDT (t : PyDateTime) : Bool :=
  decide (t.year ≤ 9999) && (decide (1 ≤ t.month) && (decide (t.month ≤ 12) &&
  (decide (1 ≤ t.day) && (decide (t.day ≤ 31) && (decide (t.hour ≤ 23) &&
  (decide (t.minute ≤ 59) && (decide (t.second ≤ 59) &&
  (decide (t.microsecond ≤ 999999) && tzOk t))))))))

theorem digitsToNat_pad6 (n : Nat) (h : n ≤ 999999) :
    digitsToNat (pad6 n) = n := by
  unfold digitsToNat pad6
  simp only [List.foldl_cons, List.foldl_nil]
  rw [digCh_toNat _ (by omega), digCh_toNat _ (by omega),
      digCh_toNat _ (by omega), digCh_toNat _ (by omega),
      digCh_toNat _ (by omega), digCh_toNat _ (by omega)]
  omega

theorem takeWhile_digit_pad6 (n : Nat) (h : n ≤ 999999) (rest : List Char)
    (hrest : List.takeWhile Char.isDigit rest = []) :
    List.takeWhile Char.isDigit (pad6 n ++ rest) = pad6 n := by
  have h1 := digCh_isDigit (n / 100000) (by omega)
  have h2 := digCh_isDigit (n / 10000 % 10) (by omega)
  have h3 := digCh_isDigit (n / 1000 % 10) (by omega)
  have h4 := digCh_isDigit (n / 100 % 10) (by omega)
  have h5 := digCh_isDigit (n / 10 % 10) (by omega)
  have h6 := digCh_isDigit (n % 10) (by omega)
  simp [pad6, List.takeWhile_cons, h1, h2, h3, h4, h5, h6, hrest]

/-- No digits can be taken off the front of an offset/empty suffix. -/
theorem takeWhile_digit_tzChars (t : PyDateTime) :
    List.takeWhile Char.isDigit (tzChars t) = [] := by
  unfold tzChars
  cases t.tzOffsetMinutes with
  | none => rfl
  | some off =>
    show List.takeWhile Char.isDigit ((if 0 ≤ off then '+' else '-') ::
      (pad2 (off.natAbs / 60) ++ ':' :: pad2 (off.natAbs % 60))) = []
    by_cases hs : 0 ≤ off
    · rw [if_pos hs]
      rfl
    · rw [if_neg hs]
      rfl

/-- `parseTz` inverts the offset rendering. -/
theorem parseTz_tzChars (t : PyDateTime) (h : tzOk t = true) :
    parseTz (tzChars t) = some t.tzOffsetMinutes := by
  unfold tzChars
  cases htz : t.tzOffsetMinutes with
  | none => rfl
  | some off =>
    rw [tzOk, htz] at h
    have hoff : off.natAbs ≤ 1439 := by simpa using h
    have e1 : val2 (digCh (off.natAbs / 60 / 10)) (digCh (off.natAbs / 60 % 10)) =
        off.natAbs / 60 := val2_pad2 _ (by omega)
    have e2 : val2 (digCh (off.natAbs % 60 / 10)) (digCh (off.natAbs % 60 % 10)) =
        off.natAbs % 60 := val2_pad2 _ (by omega)
    show parseTz ((if 0 ≤ off then '+' else '-') ::
      (pad2 (off.natAbs / 60) ++ ':' :: pad2 (off.natAbs % 60))) =
      some (some off)
    by_cases hs : 0 ≤ off
    · rw [if_pos hs]
      show (if ((digCh (off.natAbs / 60 / 10)).isDigit ∧
                (digCh (off.natAbs / 60 % 10)).isDigit ∧
                (digCh (off.natAbs % 60 / 10)).isDigit ∧
                (digCh (off.natAbs % 60 % 10)).isDigit) ∧
               val2 (digCh (off.natAbs / 60 / 10)) (digCh (off.natAbs / 60 % 10)) ≤ 23 ∧
               val2 (digCh (off.natAbs % 60 / 10)) (digCh (off.natAbs % 60 % 10)) ≤ 59
            then some (some
              ((val2 (digCh (off.natAbs / 60 / 10)) (digCh (off.natAbs / 60 % 10)) : Int) * 60 +
               (val2 (digCh (off.natAbs % 60 / 10)) (digCh (off.natAbs % 60 % 10)) : Int)))
            else none) = some (some off)
      rw [if_pos ⟨⟨digCh_isDigit _ (by omega), digCh_isDigit _ (by omega),
                   digCh_isDigit _ (by omega), digCh_isDigit _ (by omega)⟩,
                  by rw [e1]; omega, by rw [e2]; omega⟩]
      rw [e1, e2]
      have : ((off.natAbs / 60 : Nat) : Int) * 60 + ((off.natAbs % 60 : Nat) : Int) =
          off := by omega
      rw [this]
    · rw [if_neg hs]
      show (if ((digCh (off.natAbs / 60 / 10)).isDigit ∧
                (digCh (off.natAbs / 60 % 10)).isDigit ∧
                (digCh (off.natAbs % 60 / 10)).isDigit ∧
                (digCh (off.natAbs % 60 % 10)).isDigit) ∧
               val2 (digCh (off.natAbs / 60 / 10)) (digCh (off.natAbs / 60 % 10)) ≤ 23 ∧
               val2 (digCh (off.natAbs % 60 / 10)) (digCh (off.natAbs % 60 % 10)) ≤ 59
            then some (some
              (-((val2 (digCh (off.natAbs / 60 / 10)) (digCh (off.natAbs / 60 % 10)) : Int) * 60 +
                 (val2 (digCh (off.natAbs % 60 / 10)) (digCh (off.natAbs % 60 % 10)) : Int))))
            else none) = some (some off)
      rw [if_pos ⟨⟨digCh_isDigit _ (by omega), digCh_isDigit _ (by omega),
                   digCh_isDigit _ (by omega), digCh_isDigit _ (by omega)⟩,
                  by rw [e1]; omega, by rw [e2]; omega⟩]
      rw [e1, e2]
      have : -(((off.natAbs / 60 : Nat) : Int) * 60 + ((off.natAbs % 60 : Nat) : Int)) =
          off := by omega
      rw [this]

/-- `parseFrac` inverts the fractional rendering, leaving the offset
suffix for `parseTz`. -/
theorem parseFrac_frac_tz (t : PyDateTime) (hm : t.microsecond ≤ 999999) :
    parseFrac (fracChars t ++ tzChars t) =
    some (t.microsecond, tzChars t) := by
  unfold fracChars
  by_cases hz : t.microsecond = 0
  · rw [if_pos hz, List.nil_append, hz]
    show parseFrac (tzChars t) = some (0, tzChars t)
    unfold tzChars
    cases t.tzOffsetMinutes with
    | none => rfl
    | some off =>
      show parseFrac ((if 0 ≤ off then '+' else '-') ::
        (pad2 (off.natAbs / 60) ++ ':' :: pad2 (off.natAbs % 60))) =
        some (0, (if 0 ≤ off then '+' else '-') ::
          (pad2 (off.natAbs / 60) ++ ':' :: pad2 (off.natAbs % 60)))
      by_cases hs : 0 ≤ off
      · rw [if_pos hs]
        rfl
      · rw [if_neg hs]
        rfl
  · rw [if_neg hz]
    show (if 1 ≤ (List.takeWhile Char.isDigit
            (pad6 t.microsecond ++ tzChars t)).length ∧
          (List.takeWhile Char.isDigit
            (pad6 t.microsecond ++ tzChars t)).length ≤ 6 then
        some (digitsToNat (List.takeWhile Char.isDigit
                (pad6 t.microsecond ++ tzChars t)) *
              10 ^ (6 - (List.takeWhile Char.isDigit
                (pad6 t.microsecond ++ tzChars t)).length),
              (pad6 t.microsecond ++ tzChars t).drop
                (List.takeWhile Char.isDigit
                  (pad6 t.microsecond ++ tzChars t)).length)
      else none) = _
    rw [takeWhile_digit_pad6 t.microsecond hm _ (takeWhile_digit_tzChars t)]
    have hlen : (pad6 t.microsecond).length = 6 := rfl
    rw [if_pos (by rw [hlen]; omega :
      1 ≤ (pad6 t.microsecond).length ∧ (pad6 t.microsecond).length ≤ 6)]
    rw [digitsToNat_pad6 _ hm, List.drop_left, hlen]
    norm_num

/-- Reduction of the parser on the canonical date-time prefix followed by
an arbitrary suffix. -/
theorem fromisoformat_cons (a b c d e f g h i j k l m n : Char)
    (rest : List Char) (micro : Nat) (rest2 : List Char) (tz : Option Int)
    (hfrac : parseFrac rest = some (micro, rest2))
    (htz : parseTz rest2 = some tz) :
    fromisoformat ⟨a :: b :: c :: d :: '-' :: e :: f :: '-' :: g :: h :: 'T' ::
      i :: j :: ':' :: k :: l :: ':' :: m :: n :: rest⟩ =
    (if [a, b, c, d, e, f, g, h, i, j, k, l, m, n].all Char.isDigit then
      if 1 ≤ val2 e f ∧ val2 e f ≤ 12 ∧ 1 ≤ val2 g h ∧ val2 g h ≤ 31 ∧
         val2 i j ≤ 23 ∧ val2 k l ≤ 59 ∧ val2 m n ≤ 59
      then some ⟨val4 a b c d, val2 e f, val2 g h, val2 i j, val2 k l,
                 val2 m n, micro, tz⟩
      else none
    else none) := by
  show (if [a, b, c, d, e, f, g, h, i, j, k, l, m, n].all Char.isDigit then
      match parseFrac rest with
      | some (micro, rest2) =>
        match parseTz rest2 with
        | some tz =>
          if 1 ≤ val2 e f ∧ val2 e f ≤ 12 ∧ 1 ≤ val2 g h ∧ val2 g h ≤ 31 ∧
             val2 i j ≤ 23 ∧ val2 k l ≤ 59 ∧ val2 m n ≤ 59
          then some (⟨val4 a b c d, val2 e f, val2 g h, val2 i j, val2 k l,
                      val2 m n, micro, tz⟩ : PyDateTime)
          else none
        | none => none
      | none => none
    else none) = _
  rw [hfrac]
  show (if [a, b, c, d, e, f, g, h, i, j, k, l, m, n].all Char.isDigit then
      match parseTz rest2 with
      | some tz =>
        if 1 ≤ val2 e f ∧ val2 e f ≤ 12 ∧ 1 ≤ val2 g h ∧ val2 g h ≤ 31 ∧
           val2 i j ≤ 23 ∧ val2 k l ≤ 59 ∧ val2 m n ≤ 59
        then some (⟨val4 a b c d, val2 e f, val2 g h, val2 i j, val2 k l,
                    val2 m n, micro, tz⟩ : PyDateTime)
        else none
      | none => none
    else none) = _
  rw [htz]

/-- Parsing is a left inverse of rendering on constructible datetimes. -/
theorem fromisoformat_isoformat (t : PyDateTime) (h : validDT t = true) :
    fromisoformat (isoformat t) = some t := by
  rw [validDT] at h
  simp only [Bool.and_eq_true, decide_eq_true_eq] at h
  obtain ⟨h1, h2, h3, h4, h5, h6, h7, h8, h9, h10⟩ := h
  have hiso : isoformat t =
      ⟨digCh (t.year / 1000) :: digCh (t.year / 100 % 10) ::
       digCh (t.year / 10 % 10) :: digCh (t.year % 10) :: '-' ::
       digCh (t.month / 10) :: digCh (t.month % 10) :: '-' ::
       digCh (t.day / 10) :: digCh (t.day % 10) :: 'T' ::
       digCh (t.hour / 10) :: digCh (t.hour % 10) :: ':' ::
       digCh (t.minute / 10) :: digCh (t.minute % 10) :: ':' ::
       digCh (t.second / 10) :: digCh (t.second % 10) ::
       (fracChars t ++ tzChars t)⟩ := rfl
  rw [hiso, fromisoformat_cons _ _ _ _ _ _ _ _ _ _ _ _ _ _ _ _ _ _
    (parseFrac_frac_tz t h9) (parseTz_tzChars t h10)]
  have hall : ([digCh (t.year / 1000), digCh (t.year / 100 % 10),
      digCh (t.year / 10 % 10), digCh (t.year % 10), digCh (t.month / 10),
      digCh (t.month % 10), digCh (t.day / 10), digCh (t.day % 10),
      digCh (t.hour / 10), digCh (t.hour % 10), digCh (t.minute / 10),
      digCh (t.minute % 10), digCh (t.second / 10),
      digCh (t.second % 10)].all Char.isDigit) = true := by
    simp only [List.all_cons, List.all_nil, Bool.and_eq_true]
    refine ⟨?_, ?_, ?_, ?_, ?_, ?_, ?_, ?_, ?_, ?_, ?_, ?_, ?_, ?_, trivial⟩ <;>
      exact digCh_isDigit _ (by omega)
  rw [if_pos hall]
  rw [val2_pad2 t.month (by omega), val2_pad2 t.day (by omega),
      val2_pad2 t.hour (by omega), val2_pad2 t.minute (by omega),
      val2_pad2 t.second (by omega), val4_pad4 t.year (by omega)]
  rw [if_pos (by omega :
    1 ≤ t.month ∧ t.month ≤ 12 ∧ 1 ≤ t.day ∧ t.day ≤ 31 ∧
    t.hour ≤ 23 ∧ t.minute ≤ 59 ∧ t.second ≤ 59)]

/-- A datetime-looking string is an exact canonical rendering: it parses,
and re-rendering the parse reproduces it verbatim.  (Strings that do not
look like datetimes are never touched by the loader and count as
canonical.)  Every string the saver itself writes satisfies this; a
widened-but-accepted form such as `...45.123` or a `Z` suffix does not,
and is exactly what breaks byte-stability of a save. -/
def strCanonical (s : String) : Bool :=
  !is_datetime_string s ||
  (match fromisoformat s with
   | some t => isoformat t == s
   | none => false)

theorem strCanonical_isoformat (t : PyDateTime) (h : validDT t = true) :
    strCanonical (isoformat t) = true := by
  unfold strCanonical
  rw [fromisoformat_isoformat t h]
  simp

/- No datetime leaf remains anywhere in the tree (the shape of everything
`json.dump` has written). -/
mutual
def dtFreeVal : PyVal → Bool
  | .pdt _ => false
  | .plist xs => dtFreeList xs
  | .pdict d => dtFreeDict d
  | _ => true
def dtFreeList : PyList → Bool
  | .nil => true
  | .cons hd tl => dtFreeVal hd && dtFreeList tl
def dtFreeDict : PyDict → Bool
  | .nil => true
  | .cons _ v tl => dtFreeVal v && dtFreeDict tl
end

mutual
theorem dtFree_dumpVal (v : PyVal) : dtFreeVal (dumpVal v) = true := by
  cases v with
  | pdt t => rfl
  | plist xs => exact dtFree_dumpList xs
  | pdict d => exact dtFree_dumpDict d
  | pstr s => rfl
  | pint n => rfl
  | pnone => rfl
theorem dtFree_dumpList (l : PyList) : dtFreeList (dumpList l) = true := by
  cases l with
  | nil => rfl
  | cons hd tl =>
    show (dtFreeVal (dumpVal hd) && dtFreeList (dumpList tl)) = true
    rw [dtFree_dumpVal hd, dtFree_dumpList tl]
    rfl
theorem dtFree_dumpDict (d : PyDict) : dtFreeDict (dumpDict d) = true := by
  cases d with
  | nil => rfl
  | cons k v tl =>
    show (dtFreeVal (dumpVal v) && dtFreeDict (dumpDict tl)) = true
    rw [dtFree_dumpVal v, dtFree_dumpDict tl]
    rfl
end

mutual
theorem dump_id_val (v : PyVal) (h : dtFreeVal v = true) : dumpVal v = v := by
  cases v with
  | pdt t => exact absurd h (by simp [dtFreeVal])
  | plist xs =>
    show PyVal.plist (dumpList xs) = PyVal.plist xs
    rw [dump_id_list xs h]
  | pdict d =>
    show PyVal.pdict (dumpDict d) = PyVal.pdict d
    rw [dump_id_dict d h]
  | pstr s => rfl
  | pint n => rfl
  | pnone => rfl
theorem dump_id_list (l : PyList) (h : dtFreeList l = true) : dumpList l = l := by
  cases l with
  | nil => rfl
  | cons hd tl =>
    have h2 : dtFreeVal hd = true ∧ dtFreeList tl = true := by
      simpa [dtFreeList, Bool.and_eq_true] using h
    show PyList.cons (dumpVal hd) (dumpList tl) = PyList.cons hd tl
    rw [dump_id_val hd h2.1, dump_id_list tl h2.2]
theorem dump_id_dict (d : PyDict) (h : dtFreeDict d = true) : dumpDict d = d := by
  cases d with
  | nil => rfl
  | cons k v tl =>
    have h2 : dtFreeVal v = true ∧ dtFreeDict tl = true := by
      simpa [dtFreeDict, Bool.and_eq_true] using h
    show PyDict.cons k (dumpVal v) (dumpDict tl) = PyDict.cons k v tl
    rw [dump_id_val v h2.1, dump_id_dict tl h2.2]
end

/-- On a canonical string, `strToDt` either keeps the string or parses
it to a datetime that re-renders verbatim. -/
theorem strToDt_canonical (s : String) (h : strCanonical s = true) :
    strToDt s = .pstr s ∨ ∃ t, strToDt s = .pdt t ∧ isoformat t = s := by
  unfold strCanonical at h
  unfold strToDt
  by_cases hd : is_datetime_string s = true
  · rw [if_pos hd]
    rw [hd] at h
    simp only [Bool.not_true, Bool.false_or] at h
    cases hf : fromisoformat s with
    | none => exact .inl rfl
    | some t =>
      rw [hf] at h
      simp only [beq_iff_eq] at h
      exact .inr ⟨t, rfl, h⟩
  · rw [if_neg hd]
    exact .inl rfl

/- Every string the loader could parse inside the payload is an exact
canonical rendering, and every datetime the save walk can reach is
constructible — the traversal mirrors `_convert_strings_to_datetime` /
`_convert_datetime_in_dict` exactly: dict values, dicts inside lists, and
direct list elements; scalars and nested lists are never visited. -/
mutual
def gdOkDict : PyDict → Bool
  | .nil => true
  | .cons _ (.pdict d) tl => gdOkDict d && gdOkDict tl
  | .cons _ (.pstr s) tl => strCanonical s && gdOkDict tl
  | .cons _ (.pdt t) tl => validDT t && gdOkDict tl
  | .cons _ (.plist xs) tl => gdOkList xs && gdOkDict tl
  | .cons _ _ tl => gdOkDict tl
def gdOkList : PyList → Bool
  | .nil => true
  | .cons (.pdict d) tl => gdOkDict d && gdOkList tl
  | .cons (.pstr s) tl => strCanonical s && gdOkList tl
  | .cons (.pdt t) tl => validDT t && gdOkList tl
  | .cons _ tl => gdOkList tl
end

mutual
theorem gdOk_convDt_dict (d : PyDict) (h : gdOkDict d = true) :
    gdOkDict (convDtDict d) = true := by
  cases d with
  | nil => rfl
  | cons k v tl =>
    cases v with
    | pdict dd =>
      have h2 : gdOkDict dd = true ∧ gdOkDict tl = true := by
        simpa [gdOkDict, Bool.and_eq_true] using h
      show (gdOkDict (convDtDict dd) && gdOkDict (convDtDict tl)) = true
      rw [gdOk_convDt_dict dd h2.1, gdOk_convDt_dict tl h2.2]
      rfl
    | pstr s =>
      have h2 : strCanonical s = true ∧ gdOkDict tl = true := by
        simpa [gdOkDict, Bool.and_eq_true] using h
      show (strCanonical s && gdOkDict (convDtDict tl)) = true
      rw [h2.1, gdOk_convDt_dict tl h2.2]
      rfl
    | pdt t =>
      have h2 : validDT t = true ∧ gdOkDict tl = true := by
        simpa [gdOkDict, Bool.and_eq_true] using h
      show (strCanonical (isoformat t) && gdOkDict (convDtDict tl)) = true
      rw [strCanonical_isoformat t h2.1, gdOk_convDt_dict tl h2.2]
      rfl
    | plist xs =>
      have h2 : gdOkList xs = true ∧ gdOkDict tl = true := by
        simpa [gdOkDict, Bool.and_eq_true] using h
      show (gdOkList (convDtList xs) && gdOkDict (convDtDict tl)) = true
      rw [gdOk_convDt_list xs h2.1, gdOk_convDt_dict tl h2.2]
      rfl
    | pint n =>
      have h2 : gdOkDict tl = true := by simpa [gdOkDict] using h
      show gdOkDict (convDtDict tl) = true
      exact gdOk_convDt_dict tl h2
    | pnone =>
      have h2 : gdOkDict tl = true := by simpa [gdOkDict] using h
      show gdOkDict (convDtDict tl) = true
      exact gdOk_convDt_dict tl h2
theorem gdOk_convDt_list (l : PyList) (h : gdOkList l = true) :
    gdOkList (convDtList l) = true := by
  cases l with
  | nil => rfl
  | cons hd tl =>
    cases hd with
    | pdict dd =>
      have h2 : gdOkDict dd = true ∧ gdOkList tl = true := by
        simpa [gdOkList, Bool.and_eq_true] using h
      show (gdOkDict (convDtDict dd) && gdOkList (convDtList tl)) = true
      rw [gdOk_convDt_dict dd h2.1, gdOk_convDt_list tl h2.2]
      rfl
    | pstr s =>
      have h2 : strCanonical s = true ∧ gdOkList tl = true := by
        simpa [gdOkList, Bool.and_eq_true] using h
      show (strCanonical s && gdOkList (convDtList tl)) = true
      rw [h2.1, gdOk_convDt_list tl h2.2]
      rfl
    | pdt t =>
      have h2 : validDT t = true ∧ gdOkList tl = true := by
        simpa [gdOkList, Bool.and_eq_true] using h
      show (strCanonical (isoformat t) && gdOkList (convDtList tl)) = true
      rw [strCanonical_isoformat t h2.1, gdOk_convDt_list tl h2.2]
      rfl
    | plist xs =>
      have h2 : gdOkList tl = true := by simpa [gdOkList] using h
      show gdOkList (convDtList tl) = true
      exact gdOk_convDt_list tl h2
    | pint n =>
      have h2 : gdOkList tl = true := by simpa [gdOkList] using h
      show gdOkList (convDtList tl) = true
      exact gdOk_convDt_list tl h2
    | pnone =>
      have h2 : gdOkList tl = true := by simpa [gdOkList] using h
      show gdOkList (convDtList tl) = true
      exact gdOk_convDt_list tl h2
end

mutual
theorem gdOk_dump_dict (d : PyDict) (h : gdOkDict d = true) :
    gdOkDict (dumpDict d) = true := by
  cases d with
  | nil => rfl
  | cons k v tl =>
    cases v with
    | pdict dd =>
      have h2 : gdOkDict dd = true ∧ gdOkDict tl = true := by
        simpa [gdOkDict, Bool.and_eq_true] using h
      show (gdOkDict (dumpDict dd) && gdOkDict (dumpDict tl)) = true
      rw [gdOk_dump_dict dd h2.1, gdOk_dump_dict tl h2.2]
      rfl
    | pstr s =>
      have h2 : strCanonical s = true ∧ gdOkDict tl = true := by
        simpa [gdOkDict, Bool.and_eq_true] using h
      show (strCanonical s && gdOkDict (dumpDict tl)) = true
      rw [h2.1, gdOk_dump_dict tl h2.2]
      rfl
    | pdt t =>
      have h2 : validDT t = true ∧ gdOkDict tl = true := by
        simpa [gdOkDict, Bool.and_eq_true] using h
      show (strCanonical (isoformat t) && gdOkDict (dumpDict tl)) = true
      rw [strCanonical_isoformat t h2.1, gdOk_dump_dict tl h2.2]
      rfl
    | plist xs =>
      have h2 : gdOkList xs = true ∧ gdOkDict tl = true := by
        simpa [gdOkDict, Bool.and_eq_true] using h
      show (gdOkList (dumpList xs) && gdOkDict (dumpDict tl)) = true
      rw [gdOk_dump_list xs h2.1, gdOk_dump_dict tl h2.2]
      rfl
    | pint n =>
      have h2 : gdOkDict tl = true := by simpa [gdOkDict] using h
      show gdOkDict (dumpDict tl) = true
      exact gdOk_dump_dict tl h2
    | pnone =>
      have h2 : gdOkDict tl = true := by simpa [gdOkDict] using h
      show gdOkDict (dumpDict tl) = true
      exact gdOk_dump_dict tl h2
theorem gdOk_dump_list (l : PyList) (h : gdOkList l = true) :
    gdOkList (dumpList l) = true := by
  cases l with
  | nil => rfl
  | cons hd tl =>
    cases hd with
    | pdict dd =>
      have h2 : gdOkDict dd = true ∧ gdOkList tl = true := by
        simpa [gdOkList, Bool.and_eq_true] using h
      show (gdOkDict (dumpDict dd) && gdOkList (dumpList tl)) = true
      rw [gdOk_dump_dict dd h2.1, gdOk_dump_list tl h2.2]
      rfl
    | pstr s =>
      have h2 : strCanonical s = true ∧ gdOkList tl = true := by
        simpa [gdOkList, Bool.and_eq_true] using h
      show (strCanonical s && gdOkList (dumpList tl)) = true
      rw [h2.1, gdOk_dump_list tl h2.2]
      rfl
    | pdt t =>
      have h2 : validDT t = true ∧ gdOkList tl = true := by
        simpa [gdOkList, Bool.and_eq_true] using h
      show (strCanonical (isoformat t) && gdOkList (dumpList tl)) = true
      rw [strCanonical_isoformat t h2.1, gdOk_dump_list tl h2.2]
      rfl
    | plist xs =>
      have h2 : gdOkList tl = true := by simpa [gdOkList] using h
      show gdOkList (dumpList tl) = true
      exact gdOk_dump_list tl h2
    | pint n =>
      have h2 : gdOkList tl = true := by simpa [gdOkList] using h
      show gdOkList (dumpList tl) = true
      exact gdOk_dump_list tl h2
    | pnone =>
      have h2 : gdOkList tl = true := by simpa [gdOkList] using h
      show gdOkList (dumpList tl) = true
      exact gdOk_dump_list tl h2
end

mutual
theorem convRound_dict (d : PyDict) (h : dtFreeDict d = true)
    (hok : gdOkDict d = true) : convDtDict (convStrDict d) = d := by
  cases d with
  | nil => rfl
  | cons k v tl =>
    have h2 : dtFreeVal v = true ∧ dtFreeDict tl = true := by
      simpa [dtFreeDict, Bool.and_eq_true] using h
    cases v with
    | pdict dd =>
      have h3 : gdOkDict dd = true ∧ gdOkDict tl = true := by
        simpa [gdOkDict, Bool.and_eq_true] using hok
      show PyDict.cons k (.pdict (convDtDict (convStrDict dd)))
          (convDtDict (convStrDict tl)) = _
      rw [convRound_dict dd h2.1 h3.1, convRound_dict tl h2.2 h3.2]
    | pstr s =>
      have h3 : strCanonical s = true ∧ gdOkDict tl = true := by
        simpa [gdOkDict, Bool.and_eq_true] using hok
      show convDtDict (.cons k (strToDt s) (convStrDict tl)) = _
      rcases strToDt_canonical s h3.1 with hst | ⟨t, hst, hiso⟩
      · rw [hst]
        show PyDict.cons k (.pstr s) (convDtDict (convStrDict tl)) = _
        rw [convRound_dict tl h2.2 h3.2]
      · rw [hst]
        show PyDict.cons k (.pstr (isoformat t))
            (convDtDict (convStrDict tl)) = _
        rw [hiso, convRound_dict tl h2.2 h3.2]
    | plist xs =>
      have h3 : gdOkList xs = true ∧ gdOkDict tl = true := by
        simpa [gdOkDict, Bool.and_eq_true] using hok
      show PyDict.cons k (.plist (convDtList (convStrList xs)))
          (convDtDict (convStrDict tl)) = _
      rw [convRound_list xs h2.1 h3.1, convRound_dict tl h2.2 h3.2]
    | pdt t => exact absurd h2.1 (by simp [dtFreeVal])
    | pint n =>
      have h3 : gdOkDict tl = true := by simpa [gdOkDict] using hok
      show PyDict.cons k (.pint n) (convDtDict (convStrDict tl)) = _
      rw [convRound_dict tl h2.2 h3]
    | pnone =>
      have h3 : gdOkDict tl = true := by simpa [gdOkDict] using hok
      show PyDict.cons k .pnone (convDtDict (convStrDict tl)) = _
      rw [convRound_dict tl h2.2 h3]
theorem convRound_list (l : PyList) (h : dtFreeList l = true)
    (hok : gdOkList l = true) : convDtList (convStrList l) = l := by
  cases l with
  | nil => rfl
  | cons hd tl =>
    have h2 : dtFreeVal hd = true ∧ dtFreeList tl = true := by
      simpa [dtFreeList, Bool.and_eq_true] using h
    cases hd with
    | pdict dd =>
      have h3 : gdOkDict dd = true ∧ gdOkList tl = true := by
        simpa [gdOkList, Bool.and_eq_true] using hok
      show PyList.cons (.pdict (convDtDict (convStrDict dd)))
          (convDtList (convStrList tl)) = _
      rw [convRound_dict dd h2.1 h3.1, convRound_list tl h2.2 h3.2]
    | pstr s =>
      have h3 : strCanonical s = true ∧ gdOkList tl = true := by
        simpa [gdOkList, Bool.and_eq_true] using hok
      show convDtList (.cons (strToDt s) (convStrList tl)) = _
      rcases strToDt_canonical s h3.1 with hst | ⟨t, hst, hiso⟩
      · rw [hst]
        show PyList.cons (.pstr s) (convDtList (convStrList tl)) = _
        rw [convRound_list tl h2.2 h3.2]
      · rw [hst]
        show PyList.cons (.pstr (isoformat t))
            (convDtList (convStrList tl)) = _
        rw [hiso, convRound_list tl h2.2 h3.2]
    | plist xs =>
      have h3 : gdOkList tl = true := by simpa [gdOkList] using hok
      show PyList.cons (.plist xs) (convDtList (convStrList tl)) = _
      rw [convRound_list tl h2.2 h3]
    | pdt t => exact absurd h2.1 (by simp [dtFreeVal])
    | pint n =>
      have h3 : gdOkList tl = true := by simpa [gdOkList] using hok
      show PyList.cons (.pint n) (convDtList (convStrList tl)) = _
      rw [convRound_list tl h2.2 h3]
    | pnone =>
      have h3 : gdOkList tl = true := by simpa [gdOkList] using hok
      show PyList.cons .pnone (convDtList (convStrList tl)) = _
      rw [convRound_list tl h2.2 h3]
end

/-- Saving, loading and saving again writes the payload byte-identically,
provided the payload datetime-looking strings are exact canonical
renderings and its reachable datetimes are constructible. -/
theorem serializeGameData_roundtrip (d : PyDict) (h : gdOkDict d = true) :
    serializeGameData (deserializeGameData (serializeGameData d)) =
    serializeGameData d := by
  unfold serializeGameData deserializeGameData
  have h1 : dtFreeDict (dumpDict (convDtDict d)) = true := dtFree_dumpDict _
  have h2 : gdOkDict (dumpDict (convDtDict d)) = true :=
    gdOk_dump_dict _ (gdOk_convDt_dict _ h)
  rw [convRound_dict _ h1 h2, dump_id_dict _ h1]

/-! ## Full per-user record as saved by `_save_memories` -/

/-- In-memory message dict (timestamps are datetime objects). -/
structure MemMsgRec where
  role : String
  content : String
  mtype : String
  timestamp : PyDateTime
deriving DecidableEq, Repr

/-- The message dict as written to / read from the JSON file
(timestamp is ISO text). -/
structure SerMsgRec where
  role : String
  content : String
  mtype : String
  timestamp : String
deriving DecidableEq, Repr

/-- One user's in-memory `ConversationMemory` state as far as persistence
is concerned: messages, the datetime metadata fields, the game state. -/
structure ConvStateMem where
  messages : List MemMsgRec
  created_at : PyDateTime
  last_updated : PyDateTime
  active_game : Option String
  last_game_time : Option PyDateTime
  game_data : PyDict

/-- The same record in its serialized (JSON file) form. -/
structure ConvStateSer where
  messages : List SerMsgRec
  created_at : String
  last_updated : String
  active_game : Option String
  last_game_time : Option String
  game_data : PyDict

/-- src/memory.py:238-243: the per-message timestamp is rendered with
`.isoformat()`. -/
def saveMsg (m : MemMsgRec) : SerMsgRec :=
  ⟨m.role, m.content, m.mtype, isoformat m.timestamp⟩

/-- src/memory.py:186-188: `datetime.fromisoformat` on the stored text;
a parse failure raises and aborts the whole load (`none`). -/
def loadMsg (m : SerMsgRec) : Option MemMsgRec :=
  (fromisoformat m.timestamp).map (fun t => ⟨m.role, m.content, m.mtype, t⟩)

/-- src/memory.py:217-280 `_save_memories`, restricted to one user's
record: every datetime field rendered to ISO text, the open `game_data`
payload via `serializeGameData`. -/
def saveState (st : ConvStateMem) : ConvStateSer :=
  ⟨st.messages.map saveMsg, isoformat st.created_at,
   isoformat st.last_updated, st.active_game,
   st.last_game_time.map isoformat, serializeGameData st.game_data⟩

/-- src/memory.py:173-215 `_load_memories`, restricted to one user's
record: ISO fields parsed back (a raise loses the record: `none`),
`game_data` walked by `_convert_strings_to_datetime`. -/
def loadState (st : ConvStateSer) : Option ConvStateMem :=
  match st.messages.mapM loadMsg, fromisoformat st.created_at,
        fromisoformat st.last_updated with
  | some ms, some ca, some lu =>
    match st.last_game_time with
    | some s =>
      match fromisoformat s with
      | some t =>
        some ⟨ms, ca, lu, st.active_game, some t,
              deserializeGameData st.game_data⟩
      | none => none
    | none =>
      some ⟨ms, ca, lu, st.active_game, none,
            deserializeGameData st.game_data⟩
  | _, _, _ => none

/-- All named datetime fields of the record are constructible datetimes
(always true of states Python builds with `datetime.now()`). -/
def validState (st : ConvStateMem) : Bool :=
  st.messages.all (fun m => validDT m.timestamp) && (validDT st.created_at &&
  (validDT st.last_updated &&
  (match st.last_game_time with
   | some t => validDT t
   | none => true)))

theorem mapM_loadMsg_saveMsg (ms : List MemMsgRec)
    (h : ms.all (fun m => validDT m.timestamp) = true) :
    (ms.map saveMsg).mapM loadMsg = some ms := by
  induction ms with
  | nil => rfl
  | cons hd tl ih =>
    have h2 : validDT hd.timestamp = true ∧
        tl.all (fun m => validDT m.timestamp) = true := by
      simpa [List.all_cons, Bool.and_eq_true] using h
    have hhd : loadMsg (saveMsg hd) = some hd := by
      rw [loadMsg, saveMsg]
      simp only [fromisoformat_isoformat hd.timestamp h2.1, Option.map_some]
      rfl
    rw [List.map_cons, List.mapM_cons, hhd, ih h2.2]
    rfl

/-- Loading a freshly saved record succeeds and differs from the original
only in what the payload walk could not reach. -/
theorem loadState_saveState (st : ConvStateMem) (h : validState st = true) :
    loadState (saveState st) =
    some { st with
           game_data := deserializeGameData (serializeGameData st.game_data) } := by
  rw [validState, Bool.and_eq_true, Bool.and_eq_true, Bool.and_eq_true] at h
  obtain ⟨h1, h2, h3, h4⟩ := h
  unfold loadState saveState
  rw [mapM_loadMsg_saveMsg st.messages h1]
  cases hl : st.last_game_time with
  | none =>
    simp only [fromisoformat_isoformat _ h2, fromisoformat_isoformat _ h3, hl,
      Option.map_none]
    rfl
  | some t =>
    rw [hl] at h4
    have h4b : validDT t = true := h4
    simp only [fromisoformat_isoformat _ h2, fromisoformat_isoformat _ h3, hl,
      Option.map_some', fromisoformat_isoformat t h4b]

/-! ## History-bound lemmas -/

/-- The last `k` elements (what `lst[-k:]` keeps, for `k > 0`). -/
def lastN (k : Nat) (l : List α) : List α := l.drop (l.length - k)

theorem lastN_of_le (k : Nat) (l : List α) (h : l.length ≤ k) :
    lastN k l = l := by
  unfold lastN
  rw [show l.length - k = 0 from by omega]
  rfl

theorem lastN_length (k : Nat) (l : List α) :
    (lastN k l).length = min k l.length := by
  unfold lastN
  rw [List.length_drop]
  omega

theorem pySliceLast_eq_lastN (k : Nat) (hk : 0 < k) (l : List α) :
    pySliceLast k l = lastN k l := by
  unfold pySliceLast lastN
  rw [if_neg (by omega)]

/-- Trimming composes: trimming, appending and trimming again equals
appending and trimming once. -/
theorem lastN_append_lastN (k : Nat) (l xs : List α) :
    lastN k (lastN k l ++ xs) = lastN k (l ++ xs) := by
  by_cases h : l.length ≤ k
  · rw [lastN_of_le k l h]
  · have hd : l.length - k ≤ l.length := by omega
    unfold lastN
    rw [← List.drop_append_of_le_length hd, List.drop_drop]
    congr 1
    simp only [List.length_drop, List.length_append]
    omega

/-- `add_message` keeps exactly the last `max_messages` of the appended
history (for a positive bound). -/
theorem add_message_messages (m : ConvMemory) (r c t : String) (n : Nat)
    (hk : 0 < m.max_messages) :
    (add_message m r c t n).messages =
    lastN m.max_messages (m.messages ++ [(⟨r, c, n, t⟩ : MemMessage)]) := by
  show (if (m.messages ++ [(⟨r, c, n, t⟩ : MemMessage)]).length > m.max_messages
        then pySliceLast m.max_messages (m.messages ++ [⟨r, c, n, t⟩])
        else m.messages ++ [⟨r, c, n, t⟩]) = _
  by_cases h :
      (m.messages ++ [(⟨r, c, n, t⟩ : MemMessage)]).length > m.max_messages
  · rw [if_pos h, pySliceLast_eq_lastN _ hk]
  · rw [if_neg h, lastN_of_le _ _ (by omega)]

theorem add_message_le (m : ConvMemory) (r c t : String) (n : Nat)
    (hk : 0 < m.max_messages) :
    (add_message m r c t n).messages.length ≤ m.max_messages := by
  rw [add_message_messages m r c t n hk, lastN_length]
  omega

theorem addAll_spec (inputs : List (String × String × String × Nat))
    (m : ConvMemory) (hk : 0 < m.max_messages)
    (hle : m.messages.length ≤ m.max_messages) :
    (addAll m inputs).messages =
      lastN m.max_messages (m.messages ++ inputs.map mkMsg) ∧
    (addAll m inputs).total_messages = m.total_messages + inputs.length ∧
    (addAll m inputs).max_messages = m.max_messages := by
  induction inputs generalizing m with
  | nil =>
    refine ⟨?_, rfl, rfl⟩
    rw [List.map_nil, List.append_nil, lastN_of_le _ _ hle]
    rfl
  | cons x xs ih =>
    obtain ⟨r, c, t, n⟩ := x
    have hmax : (add_message m r c t n).max_messages = m.max_messages := rfl
    have htot : (add_message m r c t n).total_messages =
        m.total_messages + 1 := rfl
    have hih := ih (add_message m r c t n)
      (by rw [hmax]; exact hk)
      (by rw [hmax]; exact add_message_le m r c t n hk)
    rw [hmax] at hih
    obtain ⟨ih1, ih2, ih3⟩ := hih
    refine ⟨?_, ?_, ?_⟩
    · show (addAll (add_message m r c t n) xs).messages = _
      rw [ih1, add_message_messages m r c t n hk, lastN_append_lastN,
          List.append_assoc]
      rfl
    · show (addAll (add_message m r c t n) xs).total_messages = _
      rw [ih2, htot, List.length_cons]
      omega
    · show (addAll (add_message m r c t n) xs).max_messages = _
      rw [ih3]

theorem pySliceLast_map (k : Nat) (f : α → β) (l : List α) :
    pySliceLast k (l.map f) = (pySliceLast k l).map f := by
  unfold pySliceLast
  by_cases hk : k = 0
  · rw [if_pos hk, if_pos hk]
  · rw [if_neg hk, if_neg hk, List.length_map, List.map_drop]

/-! ## Claim theorems -/

/-- C4: for every sequence of `N` appendMessage calls with
`N > maxHistory` (starting from a fresh memory with a positive bound), the
final history is exactly the last `maxHistory` appended messages in
insertion order and has length exactly `maxHistory`; moreover any single
`add_message` mutation leaves the history within the bound. -/
theorem claim4_history_bound (M : Nat)
    (inputs : List (String × String × String × Nat))
    (hM : 0 < M) (hN : inputs.length > M) :
    (addAll ⟨M, [], 0⟩ inputs).messages =
      (inputs.map mkMsg).drop (inputs.length - M) ∧
    (addAll ⟨M, [], 0⟩ inputs).messages.length = M ∧
    (addAll ⟨M, [], 0⟩ inputs).total_messages = inputs.length ∧
    (∀ (m : ConvMemory) (r c t : String) (n : Nat), 0 < m.max_messages →
      (add_message m r c t n).messages.length ≤ m.max_messages) := by
  obtain ⟨h1, h2, h3⟩ :=
    addAll_spec inputs ⟨M, [], 0⟩ hM (by simp)
  have h1b : (addAll ⟨M, [], 0⟩ inputs).messages =
      lastN M (List.map mkMsg inputs) := h1
  have h2b : (addAll ⟨M, [], 0⟩ inputs).total_messages =
      0 + inputs.length := h2
  refine ⟨?_, ?_, ?_, fun m r c t n h => add_message_le m r c t n h⟩
  · rw [h1b]
    unfold lastN
    rw [List.length_map]
  · rw [h1b, lastN_length, List.length_map]
    omega
  · rw [h2b]
    omega

/-- Witness for C4 at a concrete 3-call sequence with bound 2. -/
theorem claim4_witness :
    0 < 2 ∧
    ([("user", "a", "text", 0), ("assistant", "b", "text", 1),
      ("user", "c", "text", 2)] :
      List (String × String × String × Nat)).length > 2 ∧
    ((addAll ⟨2, [], 0⟩ [("user", "a", "text", 0), ("assistant", "b", "text", 1),
        ("user", "c", "text", 2)]).messages =
      ([("user", "a", "text", 0), ("assistant", "b", "text", 1),
        ("user", "c", "text", 2)].map mkMsg).drop
        ([("user", "a", "text", 0), ("assistant", "b", "text", 1),
          ("user", "c", "text", 2)].length - 2) ∧
     (addAll ⟨2, [], 0⟩ [("user", "a", "text", 0), ("assistant", "b", "text", 1),
        ("user", "c", "text", 2)]).messages.length = 2 ∧
     (addAll ⟨2, [], 0⟩ [("user", "a", "text", 0), ("assistant", "b", "text", 1),
        ("user", "c", "text", 2)]).total_messages =
      [("user", "a", "text", 0), ("assistant", "b", "text", 1),
       ("user", "c", "text", 2)].length ∧
     (∀ (m : ConvMemory) (r c t : String) (n : Nat), 0 < m.max_messages →
       (add_message m r c t n).messages.length ≤ m.max_messages)) :=
  ⟨by decide, by decide,
   claim4_history_bound 2
     [("user", "a", "text", 0), ("assistant", "b", "text", 1),
      ("user", "c", "text", 2)] (by decide) (by decide)⟩

/-- C8: `get_context_for_ai` returns the empty string exactly on empty
history, and otherwise joins the renderings (bracketed command line, user
prefix, AI prefix with content cut to 200 characters plus an ellipsis) of
the 6 most recent of the last `limit` messages — stated as equality with
the specification-side description `getContextSpec`. -/
theorem claim8_context_rendering (m : ConvMemory) (limit : Nat)
    (hl : 0 < limit) :
    get_context_for_ai m limit = getContextSpec m limit := by
  unfold get_context_for_ai getContextSpec get_recent_messages
  cases hm : m.messages with
  | nil => rfl
  | cons hd tl =>
    simp only [List.isEmpty_cons, Bool.false_eq_true, if_false]
    have hne : ¬((pySliceLast limit (hd :: tl)).isEmpty = true) := by
      rw [pySliceLast_eq_lastN limit hl]
      intro hE
      rw [List.isEmpty_iff] at hE
      have hlen := lastN_length limit (hd :: tl)
      rw [hE] at hlen
      simp at hlen
      omega
    rw [if_neg hne, pySliceLast_map]

/-- Witness for C8 at a concrete two-message history and the default
limit 8. -/
theorem claim8_witness :
    0 < 8 ∧
    get_context_for_ai
      ⟨20, [⟨"user", "привет", 0, "text"⟩, ⟨"assistant", "здравствуй", 1, "text"⟩], 2⟩ 8 =
    getContextSpec
      ⟨20, [⟨"user", "привет", 0, "text"⟩, ⟨"assistant", "здравствуй", 1, "text"⟩], 2⟩ 8 :=
  ⟨by decide,
   claim8_context_rendering
     ⟨20, [⟨"user", "привет", 0, "text"⟩, ⟨"assistant", "здравствуй", 1, "text"⟩], 2⟩ 8
     (by decide)⟩

/-- C5: the hint budget table, rejection without mutation at or beyond the
budget (or with a zero budget), and the exact single increment of an
accepted hint. -/
theorem claim5_hint_budget :
    (maxHintsFor 5 = 0 ∧ maxHintsFor 10 = 1 ∧ maxHintsFor 15 = 2 ∧
     maxHintsFor 20 = 3 ∧ maxHintsFor 25 = 4 ∧ maxHintsFor 30 = 5) ∧
    (∀ s : QuizSession, maxHintsFor s.total_questions ≤ 0 →
      quiz_hint_callback s = none) ∧
    (∀ s : QuizSession,
      (s.used_hints : Int) ≥ maxHintsFor s.total_questions →
      quiz_hint_callback s = none) ∧
    (∀ s s' : QuizSession, quiz_hint_callback s = some s' →
      s'.used_hints = s.used_hints + 1 ∧ s'.questions = s.questions ∧
      s'.current_question = s.current_question ∧
      s'.correct_answers = s.correct_answers ∧
      s'.total_questions = s.total_questions) := by
  refine ⟨by decide, ?_, ?_, ?_⟩
  · intro s h
    unfold quiz_hint_callback
    rw [if_pos h]
  · intro s h
    unfold quiz_hint_callback
    by_cases h0 : maxHintsFor s.total_questions ≤ 0
    · rw [if_pos h0]
    · rw [if_neg h0, if_pos h]
  · intro s s' h
    unfold quiz_hint_callback at h
    by_cases h0 : maxHintsFor s.total_questions ≤ 0
    · rw [if_pos h0] at h
      exact absurd h (by simp)
    · rw [if_neg h0] at h
      by_cases h1 : (s.used_hints : Int) ≥ maxHintsFor s.total_questions
      · rw [if_pos h1] at h
        exact absurd h (by simp)
      · rw [if_neg h1] at h
        by_cases h2 : s.current_question < s.questions.length
        · rw [dif_pos h2] at h
          by_cases h3 : (s.questions.get ⟨s.current_question, h2⟩).question = "" ∨
              ((s.questions.get ⟨s.current_question, h2⟩).hint.getD
                "Подсказка недоступна") = ""
          · rw [if_pos h3] at h
            exact absurd h (by simp)
          · rw [if_neg h3] at h
            injection h with h
            subst h
            exact ⟨rfl, rfl, rfl, rfl, rfl⟩
        · rw [dif_neg h2] at h
          exact absurd h (by simp)

/-- Witness for C5 at concrete sessions: a 5-question quiz (zero budget),
an exhausted 10-question quiz, and an accepted hint in a fresh
10-question quiz. -/
theorem claim5_witness :
    quiz_hint_callback ⟨[⟨"q", ["a"], "1", some "h"⟩], 0, 0, 5, 0⟩ = none ∧
    quiz_hint_callback ⟨[⟨"q", ["a"], "1", some "h"⟩], 0, 0, 10, 1⟩ = none ∧
    ((⟨[⟨"q", ["a"], "1", some "h"⟩], 0, 0, 10, 1⟩ :
        QuizSession).used_hints =
      (⟨[⟨"q", ["a"], "1", some "h"⟩], 0, 0, 10, 0⟩ :
        QuizSession).used_hints + 1 ∧
     (⟨[⟨"q", ["a"], "1", some "h"⟩], 0, 0, 10, 1⟩ :
        QuizSession).questions =
      (⟨[⟨"q", ["a"], "1", some "h"⟩], 0, 0, 10, 0⟩ :
        QuizSession).questions ∧
     (⟨[⟨"q", ["a"], "1", some "h"⟩], 0, 0, 10, 1⟩ :
        QuizSession).current_question =
      (⟨[⟨"q", ["a"], "1", some "h"⟩], 0, 0, 10, 0⟩ :
        QuizSession).current_question ∧
     (⟨[⟨"q", ["a"], "1", some "h"⟩], 0, 0, 10, 1⟩ :
        QuizSession).correct_answers =
      (⟨[⟨"q", ["a"], "1", some "h"⟩], 0, 0, 10, 0⟩ :
        QuizSession).correct_answers ∧
     (⟨[⟨"q", ["a"], "1", some "h"⟩], 0, 0, 10, 1⟩ :
        QuizSession).total_questions =
      (⟨[⟨"q", ["a"], "1", some "h"⟩], 0, 0, 10, 0⟩ :
        QuizSession).total_questions) :=
  ⟨claim5_hint_budget.2.1 ⟨[⟨"q", ["a"], "1", some "h"⟩], 0, 0, 5, 0⟩
     (by decide),
   claim5_hint_budget.2.2.1 ⟨[⟨"q", ["a"], "1", some "h"⟩], 0, 0, 10, 1⟩
     (by decide),
   claim5_hint_budget.2.2.2 ⟨[⟨"q", ["a"], "1", some "h"⟩], 0, 0, 10, 0⟩
     ⟨[⟨"q", ["a"], "1", some "h"⟩], 0, 0, 10, 1⟩ (by decide)⟩

/-- Reduction of `_check_game_response` on the `guess_number` branch with
an accepted digit guess and a truthy target. -/
theorem check_game_response_guess (o : GameOracle) (st : GameState)
    (text : String) (t : Nat) (hag : st.active_game = some "guess_number")
    (htn : st.game_data.target_number = some t) (ht0 : t ≠ 0)
    (hdig : pyIsDigit text = true) :
    check_game_response o st text =
    (if strHas (check_guess (strToNat text) t) "Правильно"
     then ⟨true, clearGame st, [.guessWin (check_guess (strToNat text) t)]⟩
     else ⟨true, st, [.guessProgress (check_guess (strToNat text) t)]⟩) := by
  unfold check_game_response
  rw [hag]
  show (if ("guess_number" : String) = "guess_number" then _ else _) = _
  rw [if_pos rfl, if_pos hdig, htn]
  show (if t ≠ 0 then _ else _) = _
  rw [if_pos ht0]

/-- C6: for target `t ≠ 0` and an accepted digit guess, the verdict text
is the "lower" message iff guess > target, the "higher" message iff
guess < target, the winning message iff equal; and the game response
clears the activity iff the guess equals the target, staying handled
either way. -/
theorem claim6_guess_verdicts (o : GameOracle) (st : GameState)
    (text : String) (t : Nat) (hag : st.active_game = some "guess_number")
    (htn : st.game_data.target_number = some t) (ht0 : t ≠ 0)
    (hdig : pyIsDigit text = true) :
    (check_guess (strToNat text) t = "📉 Загаданное число меньше! ⬇️" ↔
      strToNat text > t) ∧
    (check_guess (strToNat text) t = "📈 Загаданное число больше! ⬆️" ↔
      strToNat text < t) ∧
    (check_guess (strToNat text) t = "🎉 Правильно! Ты угадал! 🎊" ↔
      strToNat text = t) ∧
    (check_game_response o st text).handled = true ∧
    ((check_game_response o st text).state.active_game = none ↔
      strToNat text = t) := by
  set g := strToNat text with hg
  have hcg := check_game_response_guess o st text t hag htn ht0 hdig
  have hwin : strHas (check_guess g t) "Правильно" = true ↔ g = t := by
    unfold check_guess
    rcases Nat.lt_trichotomy g t with hlt | heq | hgt
    · rw [if_pos hlt]
      constructor
      · intro hc
        exact absurd hc (by decide)
      · intro hc
        omega
    · rw [if_neg (by omega), if_neg (by omega)]
      constructor
      · intro _
        exact heq
      · intro _
        decide
    · rw [if_neg (by omega), if_pos hgt]
      constructor
      · intro hc
        exact absurd hc (by decide)
      · intro hc
        omega
  refine ⟨?_, ?_, ?_, ?_, ?_⟩
  · unfold check_guess
    rcases Nat.lt_trichotomy g t with hlt | heq | hgt
    · rw [if_pos hlt]
      constructor
      · intro hc
        exact absurd hc (by decide)
      · intro hc
        omega
    · rw [if_neg (by omega), if_neg (by omega)]
      constructor
      · intro hc
        exact absurd hc (by decide)
      · intro hc
        omega
    · rw [if_neg (by omega), if_pos hgt]
      exact ⟨fun _ => hgt, fun _ => rfl⟩
  · unfold check_guess
    rcases Nat.lt_trichotomy g t with hlt | heq | hgt
    · rw [if_pos hlt]
      exact ⟨fun _ => hlt, fun _ => rfl⟩
    · rw [if_neg (by omega), if_neg (by omega)]
      constructor
      · intro hc
        exact absurd hc (by decide)
      · intro hc
        omega
    · rw [if_neg (by omega), if_pos hgt]
      constructor
      · intro hc
        exact absurd hc (by decide)
      · intro hc
        omega
  · unfold check_guess
    rcases Nat.lt_trichotomy g t with hlt | heq | hgt
    · rw [if_pos hlt]
      constructor
      · intro hc
        exact absurd hc (by decide)
      · intro hc
        omega
    · rw [if_neg (by omega), if_neg (by omega)]
      exact ⟨fun _ => heq, fun _ => rfl⟩
    · rw [if_neg (by omega), if_pos hgt]
      constructor
      · intro hc
        exact absurd hc (by decide)
      · intro hc
        omega
  · rw [hcg]
    by_cases hw : strHas (check_guess g t) "Правильно" = true
    · rw [if_pos hw]
    · rw [if_neg hw]
  · rw [hcg]
    by_cases hw : strHas (check_guess g t) "Правильно" = true
    · rw [if_pos hw]
      simp only [clearGame]
      constructor
      · intro _
        exact hwin.1 hw
      · intro _
        trivial
    · rw [if_neg hw]
      constructor
      · intro hn
        rw [hag] at hn
        exact absurd hn (by simp)
      · intro he
        exact absurd (hwin.2 he) hw

/-- Witness for C6: a handled wrong guess and the verdict table at
guess 3, target 7. -/
theorem claim6_witness :
    (⟨some "guess_number", ⟨some 7, none, "", none, []⟩⟩ :
      GameState).active_game = some "guess_number" ∧
    pyIsDigit "3" = true ∧
    ((check_guess (strToNat "3") 7 = "📉 Загаданное число меньше! ⬇️" ↔
       strToNat "3" > 7) ∧
     (check_guess (strToNat "3") 7 = "📈 Загаданное число больше! ⬆️" ↔
       strToNat "3" < 7) ∧
     (check_guess (strToNat "3") 7 = "🎉 Правильно! Ты угадал! 🎊" ↔
       strToNat "3" = 7) ∧
     (check_game_response ⟨fun _ => "", fun _ => "", fun _ _ => none⟩
       ⟨some "guess_number", ⟨some 7, none, "", none, []⟩⟩ "3").handled = true ∧
     ((check_game_response ⟨fun _ => "", fun _ => "", fun _ _ => none⟩
        ⟨some "guess_number", ⟨some 7, none, "", none, []⟩⟩
        "3").state.active_game = none ↔ strToNat "3" = 7)) :=
  ⟨rfl, by decide,
   claim6_guess_verdicts ⟨fun _ => "", fun _ => "", fun _ _ => none⟩
     ⟨some "guess_number", ⟨some 7, none, "", none, []⟩⟩ "3" 7 rfl rfl
     (by decide) (by decide)⟩

/-- The weather trigger of `_check_tool_request`: some weather keyword is
a substring of the lowered, stripped text. -/
def weatherTriggerMatches (text : String) : Bool :=
  weatherKeywords.any (fun k => strHas (pyStrip (pyLower text)) k)

/-- C7: tool triggers are tested weather first; any text whose lowered
form contains a weather keyword is handled by the weather tool — in
particular a text that also looks like an arithmetic expression is routed
to weather, never to the calculator. -/
theorem claim7_weather_over_math (text : String)
    (hw : weatherTriggerMatches text = true)
    (_hm : is_math_expression text = true) :
    check_tool_request text = some .weather := by
  unfold check_tool_request check_tool_request_body
  unfold weatherTriggerMatches at hw
  rw [if_pos hw]

/-- Witness for C7 at "погода 2+2", which matches both the weather keyword
and the arithmetic pattern. -/
theorem claim7_witness :
    weatherTriggerMatches "погода 2+2" = true ∧
    is_math_expression "погода 2+2" = true ∧
    check_tool_request "погода 2+2" = some .weather :=
  ⟨by decide, by decide, claim7_weather_over_math "погода 2+2" (by decide) (by decide)⟩

/-- C9: a text classified as an arithmetic expression (and not matching
an earlier weather/translation trigger) is dispatched to
`calculator.calculate`, which the `Calculator` class does not define; the
`AttributeError` is caught by `_check_tool_request`'s `except`, which
sends an error reply and still returns `True` — so the text never reaches
generic chat and never yields a computed result. -/
theorem claim9_calc_attribute_error (text : String)
    (hm : is_math_expression text = true)
    (hw : weatherKeywords.any (fun k => strHas (pyStrip (pyLower text)) k) = false)
    (ht : translateKeywords.any (fun k => strHas (pyStrip (pyLower text)) k) = false) :
    "calculate" ∉ calculatorMethodNames ∧
    process_calc_request text = .error (.attributeError "calculate") ∧
    check_tool_request text = some .toolError ∧
    (∀ (o : GameOracle) (st : GameState),
      pyStrip text = text →
      (handle_text_message o st text).route = .tool .toolError) := by
  have hpc : process_calc_request text = .error (.attributeError "calculate") := by
    unfold process_calc_request
    rw [if_neg (by decide)]
  have hct : check_tool_request text = some .toolError := by
    unfold check_tool_request check_tool_request_body
    rw [if_neg (by simp [hw]), if_neg (by simp [ht]), if_pos hm, hpc]
    rfl
  refine ⟨by decide, hpc, hct, ?_⟩
  intro o st hstrip
  unfold handle_text_message
  simp only [hstrip, hct]

/-- Witness for C9 at the plain arithmetic text "2+2". -/
theorem claim9_witness :
    is_math_expression "2+2" = true ∧
    ("calculate" ∉ calculatorMethodNames ∧
     process_calc_request "2+2" = .error (.attributeError "calculate") ∧
     check_tool_request "2+2" = some .toolError ∧
     (∀ (o : GameOracle) (st : GameState),
       pyStrip "2+2" = "2+2" →
       (handle_text_message o st "2+2").route = .tool .toolError)) :=
  ⟨by decide, claim9_calc_attribute_error "2+2" (by decide) (by decide) (by decide)⟩

/-- C2 counterexample: in the callback quiz (10 questions, question 0 with
correct answer "2"), the wrong answer "1" still advances
`current_question` from 0 to 1 — the claim's "currentIndex stays 0" is
false on the code. -/
theorem claim2_counterexample :
    quiz_answer_callback
      ⟨[⟨"q0", ["a", "b", "c", "d"], "2", none⟩], 0, 0, 10, 0⟩ "1" =
      some ⟨⟨[⟨"q0", ["a", "b", "c", "d"], "2", none⟩], 1, 0, 10, 0⟩,
            false, false⟩ ∧
    ¬((quiz_answer_callback
        ⟨[⟨"q0", ["a", "b", "c", "d"], "2", none⟩], 0, 0, 10, 0⟩ "1").map
       (fun out => out.session.current_question) = some 0) := by
  constructor
  · rfl
  · decide

/-- C2 amended: every answered question — correct or not — advances
`current_question` by exactly one; `correct_answers` increments exactly on
a correct answer; `used_hints`, `total_questions` and the question list
are untouched; the quiz finishes iff the new index reaches
`total_questions`. -/
theorem claim2_answer_advances (s : QuizSession) (ans : String)
    (out : QuizAnswerOut) (h : quiz_answer_callback s ans = some out) :
    out.session.current_question = s.current_question + 1 ∧
    out.session.used_hints = s.used_hints ∧
    out.session.total_questions = s.total_questions ∧
    out.session.questions = s.questions ∧
    (out.isCorrect = true ↔
      ∃ hq : s.current_question < s.questions.length,
        ans = (s.questions.get ⟨s.current_question, hq⟩).correct_answer) ∧
    out.session.correct_answers =
      (if out.isCorrect then s.correct_answers + 1 else s.correct_answers) ∧
    (out.finished = true ↔ s.current_question + 1 ≥ s.total_questions) := by
  unfold quiz_answer_callback at h
  by_cases hq : s.current_question < s.questions.length
  · rw [dif_pos hq] at h
    injection h with h
    subst h
    refine ⟨rfl, rfl, rfl, rfl, ?_, ?_, ?_⟩
    · constructor
      · intro hd
        exact ⟨hq, of_decide_eq_true hd⟩
      · intro hd
        obtain ⟨hq2, he⟩ := hd
        exact decide_eq_true he
    · by_cases hc : ans = (s.questions.get ⟨s.current_question, hq⟩).correct_answer
      · simp [hc]
      · simp [hc]
    · simp [decide_eq_true_iff]
  · rw [dif_neg hq] at h
    exact absurd h (by simp)

/-- Witness for C2 at the spec's own scenario, correct branch: answer "2"
advances index 0 → 1 and correct count 0 → 1. -/
theorem claim2_witness :
    (some (⟨⟨[⟨"q0", ["a", "b", "c", "d"], "2", none⟩], 1, 1, 10, 0⟩,
            true, false⟩ : QuizAnswerOut) =
      quiz_answer_callback
        ⟨[⟨"q0", ["a", "b", "c", "d"], "2", none⟩], 0, 0, 10, 0⟩ "2") ∧
    ((⟨⟨[⟨"q0", ["a", "b", "c", "d"], "2", none⟩], 1, 1, 10, 0⟩, true, false⟩ :
       QuizAnswerOut).session.current_question =
      (⟨[⟨"q0", ["a", "b", "c", "d"], "2", none⟩], 0, 0, 10, 0⟩ :
       QuizSession).current_question + 1 ∧
     (⟨⟨[⟨"q0", ["a", "b", "c", "d"], "2", none⟩], 1, 1, 10, 0⟩, true, false⟩ :
       QuizAnswerOut).session.used_hints =
      (⟨[⟨"q0", ["a", "b", "c", "d"], "2", none⟩], 0, 0, 10, 0⟩ :
       QuizSession).used_hints ∧
     (⟨⟨[⟨"q0", ["a", "b", "c", "d"], "2", none⟩], 1, 1, 10, 0⟩, true, false⟩ :
       QuizAnswerOut).session.total_questions =
      (⟨[⟨"q0", ["a", "b", "c", "d"], "2", none⟩], 0, 0, 10, 0⟩ :
       QuizSession).total_questions ∧
     (⟨⟨[⟨"q0", ["a", "b", "c", "d"], "2", none⟩], 1, 1, 10, 0⟩, true, false⟩ :
       QuizAnswerOut).session.questions =
      (⟨[⟨"q0", ["a", "b", "c", "d"], "2", none⟩], 0, 0, 10, 0⟩ :
       QuizSession).questions ∧
     ((⟨⟨[⟨"q0", ["a", "b", "c", "d"], "2", none⟩], 1, 1, 10, 0⟩, true, false⟩ :
        QuizAnswerOut).isCorrect = true ↔
       ∃ hq : (⟨[⟨"q0", ["a", "b", "c", "d"], "2", none⟩], 0, 0, 10, 0⟩ :
           QuizSession).current_question <
           (⟨[⟨"q0", ["a", "b", "c", "d"], "2", none⟩], 0, 0, 10, 0⟩ :
           QuizSession).questions.length,
         "2" = ((⟨[⟨"q0", ["a", "b", "c", "d"], "2", none⟩], 0, 0, 10, 0⟩ :
           QuizSession).questions.get
           ⟨(⟨[⟨"q0", ["a", "b", "c", "d"], "2", none⟩], 0, 0, 10, 0⟩ :
             QuizSession).current_question, hq⟩).correct_answer) ∧
     (⟨⟨[⟨"q0", ["a", "b", "c", "d"], "2", none⟩], 1, 1, 10, 0⟩, true, false⟩ :
       QuizAnswerOut).session.correct_answers =
      (if (⟨⟨[⟨"q0", ["a", "b", "c", "d"], "2", none⟩], 1, 1, 10, 0⟩, true,
           false⟩ : QuizAnswerOut).isCorrect then
        (⟨[⟨"q0", ["a", "b", "c", "d"], "2", none⟩], 0, 0, 10, 0⟩ :
         QuizSession).correct_answers + 1
      else
        (⟨[⟨"q0", ["a", "b", "c", "d"], "2", none⟩], 0, 0, 10, 0⟩ :
         QuizSession).correct_answers) ∧
     ((⟨⟨[⟨"q0", ["a", "b", "c", "d"], "2", none⟩], 1, 1, 10, 0⟩, true, false⟩ :
        QuizAnswerOut).finished = true ↔
       (⟨[⟨"q0", ["a", "b", "c", "d"], "2", none⟩], 0, 0, 10, 0⟩ :
        QuizSession).current_question + 1 ≥
       (⟨[⟨"q0", ["a", "b", "c", "d"], "2", none⟩], 0, 0, 10, 0⟩ :
        QuizSession).total_questions)) :=
  ⟨by decide,
   claim2_answer_advances
     ⟨[⟨"q0", ["a", "b", "c", "d"], "2", none⟩], 0, 0, 10, 0⟩ "2"
     ⟨⟨[⟨"q0", ["a", "b", "c", "d"], "2", none⟩], 1, 1, 10, 0⟩, true, false⟩
     (by decide)⟩

/-- C1 counterexample: with the magic-ball activity present — whose
acceptance predicate takes any non-empty text, as the game layer's
`handled = true` on this very text shows — the text "погода в москве" is
nevertheless handled by the weather tool, and the activity is left
untouched: the code tests tool triggers BEFORE the activity engine. -/
theorem claim1_counterexample :
    (⟨some "magic_ball", {}⟩ : GameState).active_game = some "magic_ball" ∧
    (check_game_response ⟨fun _ => "", fun _ => "", fun _ _ => none⟩
      ⟨some "magic_ball", {}⟩ (pyStrip "погода в москве")).handled = true ∧
    (handle_text_message ⟨fun _ => "", fun _ => "", fun _ _ => none⟩
      ⟨some "magic_ball", {}⟩ "погода в москве").route = .tool .weather ∧
    (handle_text_message ⟨fun _ => "", fun _ => "", fun _ _ => none⟩
      ⟨some "magic_ball", {}⟩ "погода в москве").state.active_game =
      some "magic_ball" := by
  refine ⟨rfl, ?_, ?_, ?_⟩ <;> decide

/-- C1 amended: `handle_text_message` tests natural-language tool triggers
FIRST, unconditionally; when a trigger matches, the reply is the tool's
and the activity state is untouched; the activity engine sees the text
only when no tool trigger matched, and only its verdict then decides
between the activity branch and generic chat. -/
theorem claim1_tool_trigger_precedes_activity (o : GameOracle)
    (st : GameState) (rawText : String) :
    (∀ r, check_tool_request (pyStrip rawText) = some r →
      handle_text_message o st rawText = ⟨.tool r, st, []⟩) ∧
    (check_tool_request (pyStrip rawText) = none →
      handle_text_message o st rawText =
        (if (check_game_response o st (pyStrip rawText)).handled then
          ⟨.game, (check_game_response o st (pyStrip rawText)).state,
           (check_game_response o st (pyStrip rawText)).replies⟩
        else
          ⟨.generic, (check_game_response o st (pyStrip rawText)).state,
           (check_game_response o st (pyStrip rawText)).replies⟩)) := by
  constructor
  · intro r h
    unfold handle_text_message
    simp only [h]
  · intro h
    unfold handle_text_message
    simp only [h]

/-- Witness for C1: with a quiz active, "погода" still goes to the weather
tool and the quiz state is untouched. -/
theorem claim1_witness :
    check_tool_request (pyStrip "погода") = some .weather ∧
    handle_text_message ⟨fun _ => "", fun _ => "", fun _ _ => none⟩
      ⟨some "quiz", {}⟩ "погода" =
      ⟨.tool .weather, ⟨some "quiz", {}⟩, []⟩ :=
  ⟨by decide,
   (claim1_tool_trigger_precedes_activity
     ⟨fun _ => "", fun _ => "", fun _ _ => none⟩ ⟨some "quiz", {}⟩
     "погода").1 .weather (by decide)⟩

/-- Reduction of `_check_game_response` on the text-quiz branch for a
correct answer: the activity is cleared, then the unbound name `callback`
raises `NameError`, the handler's `except` replies with the generic error,
and the function returns `False`. -/
theorem check_game_response_quiz_correct (o : GameOracle) (st : GameState)
    (text ca : String) (hag : st.active_game = some "quiz")
    (hca : st.game_data.correct_answer = some ca) (hne : ca ≠ "")
    (hdig : pyIsDigit text = true) (h1 : 1 ≤ strToNat text)
    (h4 : strToNat text ≤ 4)
    (hcorr : strHas (check_quiz_answer st.game_data.question text ca)
      "Правильно" = true) :
    check_game_response o st text = ⟨false, clearGame st, [.gameError]⟩ := by
  unfold check_game_response
  rw [hag]
  show (if ("quiz" : String) = "guess_number" then _ else _) = _
  rw [if_neg (by decide)]
  show (if ("quiz" : String) = "quiz" then _ else _) = _
  rw [if_pos rfl]
  have hcond : (pyIsDigit text && decide (1 ≤ strToNat text) &&
      decide (strToNat text ≤ 4)) = true := by
    rw [hdig]
    simp [h1, h4]
  rw [if_pos hcond, hca]
  show (if ca ≠ "" then _ else _) = _
  rw [if_pos hne, if_pos hcorr]

/-- C10: on a correct digit answer to the text quiz, the game handler
clears the activity, the unbound `callback` raises, the caught error
produces an error reply and `False` — so `handle_text_message` falls
through to generic chat on the very same message, with the quiz already
cleared and the error reply already sent. -/
theorem claim10_quiz_correct_name_error (o : GameOracle) (st : GameState)
    (text ca : String) (hag : st.active_game = some "quiz")
    (hca : st.game_data.correct_answer = some ca) (hne : ca ≠ "")
    (hdig : pyIsDigit text = true) (h1 : 1 ≤ strToNat text)
    (h4 : strToNat text ≤ 4)
    (hcorr : strHas (check_quiz_answer st.game_data.question text ca)
      "Правильно" = true)
    (htool : check_tool_request (pyStrip text) = none)
    (hstrip : pyStrip text = text) :
    check_game_response o st text = ⟨false, clearGame st, [.gameError]⟩ ∧
    (handle_text_message o st text).route = .generic ∧
    (handle_text_message o st text).state.active_game = none ∧
    (handle_text_message o st text).gameReplies = [.gameError] := by
  have hgr := check_game_response_quiz_correct o st text ca hag hca hne hdig
    h1 h4 hcorr
  have hh : handle_text_message o st text =
      ⟨.generic, clearGame st, [.gameError]⟩ := by
    unfold handle_text_message
    rw [hstrip] at htool ⊢
    simp only [htool, hgr]
    rfl
  refine ⟨hgr, ?_, ?_, ?_⟩
  · rw [hh]
  · rw [hh]
    rfl
  · rw [hh]

/-- Witness for C10: quiz active with stored correct answer "2", user
sends "2". -/
theorem claim10_witness :
    pyIsDigit "2" = true ∧
    strHas (check_quiz_answer "" "2" "2") "Правильно" = true ∧
    (check_game_response ⟨fun _ => "", fun _ => "", fun _ _ => none⟩
      ⟨some "quiz", { correct_answer := some "2" }⟩ "2" =
      ⟨false, ⟨none, {}⟩, [.gameError]⟩ ∧
     (handle_text_message ⟨fun _ => "", fun _ => "", fun _ _ => none⟩
       ⟨some "quiz", { correct_answer := some "2" }⟩ "2").route = .generic ∧
     (handle_text_message ⟨fun _ => "", fun _ => "", fun _ _ => none⟩
       ⟨some "quiz", { correct_answer := some "2" }⟩ "2").state.active_game =
       none ∧
     (handle_text_message ⟨fun _ => "", fun _ => "", fun _ _ => none⟩
       ⟨some "quiz", { correct_answer := some "2" }⟩ "2").gameReplies =
       [.gameError]) :=
  ⟨by decide, by decide,
   claim10_quiz_correct_name_error
     ⟨fun _ => "", fun _ => "", fun _ _ => none⟩
     ⟨some "quiz", { correct_answer := some "2" }⟩ "2" "2" rfl rfl
     (by decide) (by decide) (by decide) (by decide) (by decide) (by decide)
     (by decide)⟩

/-- C3 counterexample.  Two failures of the claim at concrete inputs:
(a) a datetime nested inside a list within a list is written as ISO text
by the dump-time serializer, but `_convert_strings_to_datetime` never
descends into a list inside a list, so the value is loaded back as a
plain string, not a datetime — "every date/time value anywhere in the
payload round-trips" is false; (b) a payload string in the widened form
`fromisoformat` also accepts, "2024-05-17T12:30:45.123", passes
`_is_datetime_string`, is parsed at load, and is re-rendered as
"2024-05-17T12:30:45.123000" by the next save — so serialize →
deserialize → serialize is not byte-identical to the first serialization
for every state. -/
theorem claim3_counterexample :
    (deserializeGameData (serializeGameData
      (.cons "a" (.plist (.cons (.plist
        (.cons (.pdt ⟨2024, 5, 17, 12, 30, 45, 0, none⟩) .nil)) .nil)) .nil)) =
    (.cons "a" (.plist (.cons (.plist
      (.cons (.pstr "2024-05-17T12:30:45") .nil)) .nil)) .nil) ∧
    dtFreeDict (.cons "a" (.plist (.cons (.plist
      (.cons (.pdt ⟨2024, 5, 17, 12, 30, 45, 0, none⟩) .nil)) .nil)) .nil) = false ∧
    dtFreeDict (deserializeGameData (serializeGameData
      (.cons "a" (.plist (.cons (.plist
        (.cons (.pdt ⟨2024, 5, 17, 12, 30, 45, 0, none⟩) .nil)) .nil)) .nil))) =
      true) ∧
    (serializeGameData
      (.cons "s" (.pstr "2024-05-17T12:30:45.123") .nil) =
      (.cons "s" (.pstr "2024-05-17T12:30:45.123") .nil) ∧
     serializeGameData (deserializeGameData (serializeGameData
      (.cons "s" (.pstr "2024-05-17T12:30:45.123") .nil))) =
      (.cons "s" (.pstr "2024-05-17T12:30:45.123000") .nil) ∧
     ("2024-05-17T12:30:45.123000" : String) ≠ "2024-05-17T12:30:45.123") :=
  ⟨⟨rfl, rfl, rfl⟩, rfl, rfl, by decide⟩

/-- C3 amended: serialize → deserialize → serialize is byte-identical to
the first serialization for every constructible state whose payload's
datetime-looking strings are exact canonical `isoformat` renderings — in
particular for every state whose payload strings are not datetime-shaped
at all, and for everything the saver itself wrote.  Datetimes the
recursive walk can reach round-trip through ISO text; a widened accepted
string form is re-rendered canonically (changing the bytes once), and a
datetime inside a doubly-nested list survives only as its ISO string. -/
theorem claim3_roundtrip_idempotent (st : ConvStateMem)
    (h : validState st = true) (hgd : gdOkDict st.game_data = true) :
    (loadState (saveState st)).map saveState = some (saveState st) := by
  rw [loadState_saveState st h, Option.map_some']
  have hsame : saveState { st with
      game_data := deserializeGameData (serializeGameData st.game_data) } =
      saveState st := by
    unfold saveState
    rw [serializeGameData_roundtrip st.game_data hgd]
  rw [hsame]

/-- Witness for C3 at a concrete state whose payload holds timestamps at
the top level, inside a nested dict and inside a list, plus a canonical
datetime string. -/
theorem claim3_witness :
    validState
      ⟨[⟨"user", "hi", "text", ⟨2024, 5, 17, 12, 30, 45, 500000, none⟩⟩],
       ⟨2024, 1, 1, 0, 0, 0, 0, none⟩, ⟨2024, 5, 17, 12, 30, 45, 0, none⟩,
       some "quiz", some ⟨2024, 5, 17, 12, 30, 45, 0, none⟩,
       .cons "start" (.pdt ⟨2024, 5, 17, 12, 30, 45, 0, none⟩)
         (.cons "inner" (.pdict (.cons "ts"
           (.pdt ⟨2024, 5, 17, 12, 30, 45, 0, none⟩) .nil))
         (.cons "times" (.plist (.cons
           (.pdt ⟨2024, 5, 17, 12, 30, 45, 0, none⟩) .nil))
         (.cons "note" (.pstr "2023-01-01T00:00:00") .nil)))⟩ = true ∧
    gdOkDict
      (.cons "start" (.pdt ⟨2024, 5, 17, 12, 30, 45, 0, none⟩)
        (.cons "inner" (.pdict (.cons "ts"
          (.pdt ⟨2024, 5, 17, 12, 30, 45, 0, none⟩) .nil))
        (.cons "times" (.plist (.cons
          (.pdt ⟨2024, 5, 17, 12, 30, 45, 0, none⟩) .nil))
        (.cons "note" (.pstr "2023-01-01T00:00:00") .nil)))) = true ∧
    (loadState (saveState
      ⟨[⟨"user", "hi", "text", ⟨2024, 5, 17, 12, 30, 45, 500000, none⟩⟩],
       ⟨2024, 1, 1, 0, 0, 0, 0, none⟩, ⟨2024, 5, 17, 12, 30, 45, 0, none⟩,
       some "quiz", some ⟨2024, 5, 17, 12, 30, 45, 0, none⟩,
       .cons "start" (.pdt ⟨2024, 5, 17, 12, 30, 45, 0, none⟩)
         (.cons "inner" (.pdict (.cons "ts"
           (.pdt ⟨2024, 5, 17, 12, 30, 45, 0, none⟩) .nil))
         (.cons "times" (.plist (.cons
           (.pdt ⟨2024, 5, 17, 12, 30, 45, 0, none⟩) .nil))
         (.cons "note" (.pstr "2023-01-01T00:00:00") .nil)))⟩)).map saveState =
    some (saveState
      ⟨[⟨"user", "hi", "text", ⟨2024, 5, 17, 12, 30, 45, 500000, none⟩⟩],
       ⟨2024, 1, 1, 0, 0, 0, 0, none⟩, ⟨2024, 5, 17, 12, 30, 45, 0, none⟩,
       some "quiz", some ⟨2024, 5, 17, 12, 30, 45, 0, none⟩,
       .cons "start" (.pdt ⟨2024, 5, 17, 12, 30, 45, 0, none⟩)
         (.cons "inner" (.pdict (.cons "ts"
           (.pdt ⟨2024, 5, 17, 12, 30, 45, 0, none⟩) .nil))
         (.cons "times" (.plist (.cons
           (.pdt ⟨2024, 5, 17, 12, 30, 45, 0, none⟩) .nil))
         (.cons "note" (.pstr "2023-01-01T00:00:00") .nil)))⟩) :=
  ⟨by decide, by decide,
   claim3_roundtrip_idempotent
     ⟨[⟨"user", "hi", "text", ⟨2024, 5, 17, 12, 30, 45, 500000, none⟩⟩],
      ⟨2024, 1, 1, 0, 0, 0, 0, none⟩, ⟨2024, 5, 17, 12, 30, 45, 0, none⟩,
      some "quiz", some ⟨2024, 5, 17, 12, 30, 45, 0, none⟩,
      .cons "start" (.pdt ⟨2024, 5, 17, 12, 30, 45, 0, none⟩)
        (.cons "inner" (.pdict (.cons "ts"
          (.pdt ⟨2024, 5, 17, 12, 30, 45, 0, none⟩) .nil))
        (.cons "times" (.plist (.cons
          (.pdt ⟨2024, 5, 17, 12, 30, 45, 0, none⟩) .nil))
        (.cons "note" (.pstr "2023-01-01T00:00:00") .nil)))⟩
     (by decide) (by decide)⟩
